import Mathlib

/-!
Verification of the genetic-algorithm scheduling engine (`aiSolver.ts`).

The TypeScript source is embedded shallowly:

* JavaScript `Map`s are modelled as association lists with JS insertion-order
  semantics (`mkMap`, `jsSet`): setting an existing key replaces its value in
  place, setting a new key appends at the end, iteration follows list order.
* Mutable `Individual`s are modelled by explicit state passing over the
  structure `St` (genome + instances).  Every in-place mutation of the source
  (`attendees.push`, `attendees.filter`, `genes.set`, `genes.delete`) becomes
  a pure update of `St`.
* `Array.prototype.sort` (stable since ES2019) is modelled by a stable
  insertion sort parameterised by the comparator.
* Numbers are modelled by `Nat`/`Int`; the two percentage statistics, which
  the source computes with JS floating-point division, are modelled with
  exact rationals.
* The unbounded `while` loop of the rebalancing phase is modelled with an
  explicit fuel equal to the attendee count of the instance being drained,
  which suffices on all consistent states (proved below).
-/

set_option autoImplicit false

namespace Plan

/-! ## Domain model (`types.ts`) -/

inductive SessionType where
  | PLENARY | MANDATORY | ELECTIVE | BREAK
  deriving DecidableEq, Repr

inductive SlotType where
  | SESSION | BREAK | MEAL | OTHER
  deriving DecidableEq, Repr

structure Room where
  id : String
  name : String
  capacity : Int
  deriving DecidableEq, Repr

structure TimeSlot where
  id : Nat
  day : Nat
  label : String
  type : SlotType
  deriving DecidableEq, Repr

structure SessionConstraints where
  allowedDays : List Nat
  timeOfDay : String
  deriving DecidableEq, Repr

structure Session where
  id : Nat
  title : String
  speaker : String
  type : SessionType
  repeats : Nat
  constraints : Option SessionConstraints
  deriving DecidableEq, Repr

structure Advisor where
  id : Nat
  name : String
  preferences : List Nat
  deriving DecidableEq, Repr

structure SInst where
  instanceId : String
  sessionId : Nat
  slotId : Nat
  roomId : String
  attendees : List Nat
  deriving DecidableEq, Repr

structure Gene where
  sessionId : Nat
  slotId : Nat
  roomId : String
  deriving DecidableEq, Repr

structure Oblig where
  advId : Nat
  sessionId : Nat
  slotId : Nat
  roomId : String
  deriving DecidableEq, Repr

/-! ## JS `Map` model: association lists with insertion-order semantics -/

/-- `Map.prototype.set`: replace the value of an existing key in place,
otherwise append the binding at the end (JS insertion order). -/
def jsSet {α β : Type} [DecidableEq α] (k : α) (v : β) : List (α × β) → List (α × β)
  | [] => [(k, v)]
  | (k', v') :: rest => if k' = k then (k, v) :: rest else (k', v') :: jsSet k v rest

/-- `new Map(entries)`: later bindings for a key overwrite earlier ones,
keeping the position of the first insertion. -/
def mkMap {α β : Type} [DecidableEq α] (l : List (α × β)) : List (α × β) :=
  l.foldl (fun acc kv => jsSet kv.1 kv.2 acc) []

/-- `Map.prototype.get`. -/
def jsGet {α β : Type} [DecidableEq α] (k : α) (l : List (α × β)) : Option β :=
  (l.find? (fun kv => kv.1 = k)).map (·.2)

/-- `Map.prototype.delete`. -/
def jsDelete {α β : Type} [DecidableEq α] (k : α) (l : List (α × β)) : List (α × β) :=
  l.filter (fun kv => ¬ kv.1 = k)

/-! ## Stable sort (`Array.prototype.sort` with a consistent comparator) -/

/-- Insert keeping elements that compare `le` to `x` before it (stable). -/
def insSorted {α : Type} (le : α → α → Bool) (x : α) : List α → List α
  | [] => [x]
  | y :: ys => if le y x then y :: insSorted le x ys else x :: y :: ys

/-- Stable sort by the boolean total preorder `le`. -/
def ssort {α : Type} (le : α → α → Bool) (l : List α) : List α :=
  l.foldl (fun acc x => insSorted le x acc) []

/-! ## Capacity resolver (`getStrictCapacity`) -/

def getStrictCapacity (roomId : String) (sessionId : Nat) (slotId : Nat)
    (roomsById : List (String × Room)) (slotsById : List (Nat × TimeSlot))
    (sessions : List Session) : Int :=
  match jsGet roomId roomsById, jsGet slotId slotsById with
  | some room, some slot =>
    if roomId = "molenhoek" then
      (if sessionId = 46 then 300 else 0)
    else if slot.day = 2 ∧ roomId = "kinderdijk" then
      0
    else
      match sessions.find? (fun s => s.id = sessionId) with
      | some session =>
        if session.type = SessionType.MANDATORY ∧ room.capacity ≤ 27 then 32
        else room.capacity
      | none => room.capacity
  | _, _ => 0

/-- The capacity contract exactly as the specification words it (§4.1):
rules applied in order, first match wins. -/
def capacitySpec (roomId : String) (sessionId : Nat) (room : Room)
    (slot : TimeSlot) (sessionType : Option SessionType) : Int :=
  if roomId = "molenhoek" then
    (if sessionId = 46 then 300 else 0)
  else if slot.day = 2 ∧ roomId = "kinderdijk" then 0
  else if sessionType = some SessionType.MANDATORY ∧ room.capacity ≤ 27 then 27 + 5
  else room.capacity

lemma jsGet_some_mem {α β : Type} [DecidableEq α] {k : α} {l : List (α × β)} {v : β}
    (h : jsGet k l = some v) : ∃ p ∈ l, p.2 = v := by
  unfold jsGet at h
  cases hf : l.find? (fun kv => kv.1 = k) with
  | none => simp [hf] at h
  | some p =>
    refine ⟨p, List.mem_of_find?_eq_some hf, ?_⟩
    simp [hf] at h
    exact h

lemma getStrictCapacity_nonneg (roomId : String) (sessionId slotId : Nat)
    (roomsById : List (String × Room)) (slotsById : List (Nat × TimeSlot))
    (sessions : List Session) (hcap : ∀ p ∈ roomsById, 0 ≤ p.2.capacity) :
    0 ≤ getStrictCapacity roomId sessionId slotId roomsById slotsById sessions := by
  unfold getStrictCapacity
  cases hroom : jsGet roomId roomsById with
  | none => simp
  | some room =>
    cases hslot : jsGet slotId slotsById with
    | none => simp
    | some slot =>
      obtain ⟨p, hp, hpv⟩ := jsGet_some_mem hroom
      have h0 : 0 ≤ room.capacity := hpv ▸ hcap p hp
      simp only
      split
      · split <;> omega
      · split
        · omega
        · cases hf : sessions.find? (fun s => s.id = sessionId) with
          | none => simpa using h0
          | some session =>
            simp only
            split <;> omega

/-- C6. The Capacity Resolver applies its rules in order, first match
winning, exactly as the specification's cascade (`capacitySpec`) states
them, and — whenever the nominal room capacities are nonnegative — its
result is a nonnegative integer. -/
theorem getStrictCapacity_matches_spec_and_nonneg :
    (∀ (roomId : String) (sessionId slotId : Nat)
       (roomsById : List (String × Room)) (slotsById : List (Nat × TimeSlot))
       (sessions : List Session) (room : Room) (slot : TimeSlot),
       jsGet roomId roomsById = some room → jsGet slotId slotsById = some slot →
       getStrictCapacity roomId sessionId slotId roomsById slotsById sessions
         = capacitySpec roomId sessionId room slot
             ((sessions.find? (fun s => s.id = sessionId)).map (·.type)))
    ∧ (∀ (roomId : String) (sessionId slotId : Nat)
       (roomsById : List (String × Room)) (slotsById : List (Nat × TimeSlot))
       (sessions : List Session),
       (∀ p ∈ roomsById, 0 ≤ p.2.capacity) →
       0 ≤ getStrictCapacity roomId sessionId slotId roomsById slotsById sessions) := by
  constructor
  · intro roomId sessionId slotId roomsById slotsById sessions room slot hroom hslot
    unfold getStrictCapacity capacitySpec
    rw [hroom, hslot]
    cases hf : sessions.find? (fun s => s.id = sessionId) with
    | none => simp
    | some session => by_cases h27 : session.type = SessionType.MANDATORY ∧ room.capacity ≤ 27 <;> simp [h27]
  · intro roomId sessionId slotId roomsById slotsById sessions hcap
    exact getStrictCapacity_nonneg roomId sessionId slotId roomsById slotsById sessions hcap

/-- Witness for C6 at a concrete input: a mandatory session in a small
room gets the overflow capacity 32 = 27 + 5. -/
theorem getStrictCapacity_matches_spec_and_nonneg_witness :
    getStrictCapacity "witte" 7 2
        [("witte", ⟨"witte", "De Witte", 27⟩)] [(2, ⟨2, 1, "08.15 - 09.15", SlotType.SESSION⟩)]
        [⟨7, "t", "", SessionType.MANDATORY, 1, none⟩]
      = capacitySpec "witte" 7 ⟨"witte", "De Witte", 27⟩ ⟨2, 1, "08.15 - 09.15", SlotType.SESSION⟩
          (some SessionType.MANDATORY)
    ∧ 0 ≤ getStrictCapacity "witte" 7 2
        [("witte", ⟨"witte", "De Witte", 27⟩)] [(2, ⟨2, 1, "08.15 - 09.15", SlotType.SESSION⟩)]
        [⟨7, "t", "", SessionType.MANDATORY, 1, none⟩] := by
  constructor
  · have h := getStrictCapacity_matches_spec_and_nonneg.1 "witte" 7 2
      [("witte", ⟨"witte", "De Witte", 27⟩)] [(2, ⟨2, 1, "08.15 - 09.15", SlotType.SESSION⟩)]
      [⟨7, "t", "", SessionType.MANDATORY, 1, none⟩]
      ⟨"witte", "De Witte", 27⟩ ⟨2, 1, "08.15 - 09.15", SlotType.SESSION⟩ (by decide) (by decide)
    simpa using h
  · exact getStrictCapacity_matches_spec_and_nonneg.2 "witte" 7 2 _ _ _ (by decide)

/-! ## Speaker matching (`normalizeName` / `matchSpeakerToAdvisor`)

The source splits the speaker field with the regex `/[/&+,]|\ben\b/i` and
normalizes with `.toLowerCase().replace(/[^a-z0-9]/g, '')`.  `\w` (for the
word boundary `\b`) is `[A-Za-z0-9_]`. -/

def isWordChar (c : Char) : Bool := c.isAlpha || c.isDigit || c = '_'

def optWord : Option Char → Bool
  | none => false
  | some c => isWordChar c

def headWord : List Char → Bool
  | [] => false
  | d :: _ => isWordChar d

def isSep (c : Char) : Bool := c = '/' || c = '&' || c = '+' || c = ','

/-- Scan of `String.prototype.split(/[/&+,]|\ben\b/i)`: `prev` is the last
character already scanned (for the word boundary), `acc` the current piece
reversed. -/
def splitAux : Option Char → List Char → List Char → List (List Char)
  | _, [], acc => [acc.reverse]
  | _, [c], acc =>
    if isSep c then [acc.reverse, []] else [(c :: acc).reverse]
  | prev, c :: n :: rest2, acc =>
    if isSep c then
      acc.reverse :: splitAux (some c) (n :: rest2) []
    else if c.toLower = 'e' ∧ n.toLower = 'n' ∧ optWord prev = false ∧ headWord rest2 = false then
      acc.reverse :: splitAux (some n) rest2 []
    else
      splitAux (some c) (n :: rest2) (c :: acc)

def splitSpeaker (s : String) : List (List Char) := splitAux none s.toList []

def lowerAlnum (c : Char) : Bool :=
  ('a' ≤ c && c ≤ 'z') || ('0' ≤ c && c ≤ '9')

def normalizeChars (cs : List Char) : List Char :=
  (cs.map Char.toLower).filter lowerAlnum

def normalizeName (s : String) : List Char := normalizeChars s.toList

/-- `needle.isPrefix-of-hay` check used to build `String.prototype.includes`. -/
def startsWithCL : List Char → List Char → Bool
  | [], _ => true
  | _ :: _, [] => false
  | a :: as, b :: bs => a = b && startsWithCL as bs

/-- `hay.includes(needle)` on character lists. -/
def containsCL (needle : List Char) : List Char → Bool
  | [] => startsWithCL needle []
  | c :: rest => startsWithCL needle (c :: rest) || containsCL needle rest

def matchSpeakerToAdvisor (speaker : String) (advisor : Advisor) : Bool :=
  if speaker = "" then false
  else
    let speakerParts := ((splitSpeaker speaker).map normalizeChars).filter (fun p => ¬ p = [])
    let advisorName := normalizeName advisor.name
    speakerParts.any (fun part => containsCL part advisorName)

/-- The matching predicate exactly as the claim words it: split on slash,
ampersand, plus, comma and the word "and"; the attendee matches when the
normalized attendee name is a substring of, or contains, a fragment. -/
def claimSplitAux : Option Char → List Char → List Char → List (List Char)
  | _, [], acc => [acc.reverse]
  | _, [c], acc =>
    if isSep c then [acc.reverse, []] else [(c :: acc).reverse]
  | _, [c, n], acc =>
    if isSep c then acc.reverse :: claimSplitAux (some c) [n] []
    else claimSplitAux (some c) [n] (c :: acc)
  | prev, c :: n :: d :: rest3, acc =>
    if isSep c then
      acc.reverse :: claimSplitAux (some c) (n :: d :: rest3) []
    else if c.toLower = 'a' ∧ n.toLower = 'n' ∧ d.toLower = 'd' ∧
        optWord prev = false ∧ headWord rest3 = false then
      acc.reverse :: claimSplitAux (some d) rest3 []
    else
      claimSplitAux (some c) (n :: d :: rest3) (c :: acc)

def claimMatch (speaker : String) (advisor : Advisor) : Bool :=
  if speaker = "" then false
  else
    let fragments := ((claimSplitAux none speaker.toList []).map normalizeChars).filter (fun p => ¬ p = [])
    let advisorName := normalizeName advisor.name
    fragments.any (fun part => containsCL part advisorName || containsCL advisorName part)

lemma startsWithCL_iff (n : List Char) : ∀ h : List Char,
    startsWithCL n h = true ↔ ∃ t, h = n ++ t := by
  induction n with
  | nil => intro h; simp [startsWithCL]
  | cons a as ih =>
    intro h
    cases h with
    | nil =>
      simp [startsWithCL]
    | cons b bs =>
      simp only [startsWithCL, Bool.and_eq_true, decide_eq_true_eq, ih]
      constructor
      · rintro ⟨rfl, t, rfl⟩; exact ⟨t, rfl⟩
      · rintro ⟨t, ht⟩
        rw [List.cons_append] at ht
        obtain ⟨h1, h2⟩ := List.cons.inj ht
        exact ⟨h1.symm, t, h2⟩

lemma containsCL_iff (n : List Char) : ∀ h : List Char,
    containsCL n h = true ↔ ∃ pre post, h = pre ++ n ++ post := by
  intro h
  induction h with
  | nil =>
    simp only [containsCL, startsWithCL_iff]
    constructor
    · rintro ⟨t, ht⟩
      obtain ⟨rfl, rfl⟩ : n = [] ∧ t = [] := by
        constructor <;> [cases n; cases t] <;> simp_all
      exact ⟨[], [], rfl⟩
    · rintro ⟨pre, post, hp⟩
      refine ⟨post, ?_⟩
      have : pre = [] ∧ n ++ post = [] := by
        cases pre <;> simp_all
      simp_all
  | cons c rest ih =>
    simp only [containsCL, Bool.or_eq_true, startsWithCL_iff, ih]
    constructor
    · rintro (⟨t, ht⟩ | ⟨pre, post, hp⟩)
      · exact ⟨[], t, by simp [ht]⟩
      · exact ⟨c :: pre, post, by simp [hp]⟩
    · rintro ⟨pre, post, hp⟩
      cases pre with
      | nil => exact Or.inl ⟨post, by simpa using hp⟩
      | cons p ps =>
        right
        refine ⟨ps, post, ?_⟩
        simpa using List.cons.inj hp |>.2

/-- C7 counterexample: for speaker `"Anna and Ben"` and attendee `"Ben"`,
the claim's predicate (split on the word "and"; symmetric substring test)
matches, but the code's predicate (split on the word "en"; the attendee
name must contain the fragment) does not. -/
theorem matchSpeaker_claim_counterexample :
    matchSpeakerToAdvisor "Anna and Ben" ⟨3, "Ben", []⟩ = false
    ∧ claimMatch "Anna and Ben" ⟨3, "Ben", []⟩ = true := by
  constructor <;> decide

/-- C7 (amended). An attendee matches a speaker field iff the field is
non-empty and the normalized attendee name *contains* one of the normalized
fragments obtained by splitting the field on slash, ampersand, plus, comma
and the (Dutch) word "en". -/
theorem matchSpeaker_iff (speaker : String) (adv : Advisor) :
    matchSpeakerToAdvisor speaker adv = true ↔
      (¬ speaker = "" ∧ ∃ part ∈ (splitSpeaker speaker).map normalizeChars,
        ¬ part = [] ∧ ∃ pre post, normalizeName adv.name = pre ++ part ++ post) := by
  unfold matchSpeakerToAdvisor
  by_cases hs : speaker = ""
  · simp [hs]
  · simp only [hs, if_false, List.any_eq_true, List.mem_filter, decide_eq_true_eq,
      not_false_iff, true_and]
    constructor
    · rintro ⟨part, ⟨hmem, hne⟩, hcont⟩
      exact ⟨part, hmem, hne, (containsCL_iff part _).mp hcont⟩
    · rintro ⟨part, hmem, hne, pre, post, hpp⟩
      exact ⟨part, ⟨hmem, hne⟩, (containsCL_iff part _).mpr ⟨pre, post, hpp⟩⟩

/-- Witness for C7's amended characterization at a concrete input. -/
theorem matchSpeaker_iff_witness :
    ¬ (("Jan en Piet" : String) = "") ∧
      ∃ part ∈ (splitSpeaker "Jan en Piet").map normalizeChars,
        ¬ part = [] ∧ ∃ pre post, normalizeName (Advisor.mk 1 "Jan Jansen" []).name = pre ++ part ++ post :=
  (matchSpeaker_iff "Jan en Piet" ⟨1, "Jan Jansen", []⟩).mp (by decide)

/-! ## Presenter-obligation builder (`buildPresenterObligations`) -/

def buildPresenterObligations (sessions : List Session) (advisors : List Advisor)
    (masterOptions : List SInst) : List (Nat × List Oblig) :=
  let sessionsById := mkMap (sessions.map (fun s => (s.id, s)))
  masterOptions.foldl (fun obl inst =>
    match jsGet inst.sessionId sessionsById with
    | none => obl
    | some session =>
      if session.speaker = "" then obl
      else
        advisors.foldl (fun obl adv =>
          if matchSpeakerToAdvisor session.speaker adv then
            let list := (jsGet inst.slotId obl).getD []
            if list.any (fun o => decide (o.advId = adv.id ∧ o.sessionId = inst.sessionId)) then
              jsSet inst.slotId list obl
            else
              jsSet inst.slotId
                (list ++ [⟨adv.id, inst.sessionId, inst.slotId, inst.roomId⟩]) obl
          else obl) obl) []

/-! ## Genome / Individual representation -/

abbrev Genome : Type := List (Nat × List (Nat × Gene))

structure Stats where
  mandatoryMetPercent : ℚ
  capacityViolations : Nat
  unfilledSlots : Nat
  preferenceMetPercent : ℚ
  minSizeViolations : Nat
  duplicatesFound : Nat
  deriving DecidableEq, Repr

/-- The mutable candidate state a Repair Pass works on: the genome plus the
materialized instances (fitness and stats are only ever written by the
fitness evaluator, which is modelled separately as a pure function). -/
structure St where
  genome : Genome
  instances : List SInst
  deriving DecidableEq

def roomsByIdOf (rooms : List Room) : List (String × Room) :=
  mkMap (rooms.map (fun r => (r.id, r)))

def slotsByIdOf (timeSlots : List TimeSlot) : List (Nat × TimeSlot) :=
  mkMap (timeSlots.map (fun t => (t.id, t)))

/-- `Array.from(slotsById.values()).filter(s => s.type === SESSION).map(s => s.id)`. -/
def sessionSlotsOf (timeSlots : List TimeSlot) : List Nat :=
  ((((slotsByIdOf timeSlots).map (·.2)).filter (fun s => decide (s.type = SlotType.SESSION))).map (·.id))

/-- Mandatory plus plenary sessions, as filtered by the fitness evaluator
and the Repair Pass. -/
def mandatoryOf (sessions : List Session) : List Session :=
  sessions.filter (fun s =>
    decide (s.type = SessionType.MANDATORY ∨ s.type = SessionType.PLENARY))

/-! ## Fitness evaluator (`calculateFitness`) -/

def W_CAPACITY_VIOLATION : Int := -50000
def W_MANDATORY_MISSING : Int := -100000
def W_DUPLICATE_SLOT : Int := -50000
def W_UNFILLED_SLOT : Int := -5000
def W_PREFERENCE_MET : Int := 100
def W_DUPLICATE_SESSION : Int := -100000

/-- Session identifiers attended by one advisor (the fully-populated
`attendingIds` set; only membership is ever used). -/
def attendingIds (genes : List (Nat × Gene)) : List Nat :=
  genes.map (·.2.sessionId)

/-- The duplicate count of the `genes.forEach` loop: a gene whose session
identifier was already seen counts once. -/
def dupAux (seen : List Nat) : List (Nat × Gene) → Nat
  | [] => 0
  | e :: rest =>
    (if e.2.sessionId ∈ seen then 1 else 0) + dupAux (e.2.sessionId :: seen) rest

def advDup (genome : Genome) (advId : Nat) : Nat :=
  match jsGet advId genome with
  | none => 0
  | some genes => dupAux [] genes

def advGenesList (genome : Genome) (advId : Nat) : List (Nat × Gene) :=
  match jsGet advId genome with
  | none => []
  | some genes => genes

def advAttends (genome : Genome) (advId sessionId : Nat) : Prop :=
  sessionId ∈ attendingIds (advGenesList genome advId)

instance (genome : Genome) (advId sessionId : Nat) :
    Decidable (advAttends genome advId sessionId) :=
  inferInstanceAs (Decidable (sessionId ∈ attendingIds (advGenesList genome advId)))

def advMissing (sessions : List Session) (genome : Genome) (advId : Nat) : Nat :=
  (mandatoryOf sessions).countP (fun m => decide (¬ advAttends genome advId m.id))

def advMet (sessions : List Session) (genome : Genome) (advId : Nat) : Nat :=
  (mandatoryOf sessions).countP (fun m => decide (advAttends genome advId m.id))

def advPersonalMet (genome : Genome) (adv : Advisor) : Nat :=
  adv.preferences.countP (fun p => decide (advAttends genome adv.id p))

def maxMatchable (sessions : List Session) (timeSlots : List TimeSlot) (adv : Advisor) : Nat :=
  min adv.preferences.length ((sessionSlotsOf timeSlots).length - (mandatoryOf sessions).length)

/-- Per-advisor score contribution of the advisor loop of `calculateFitness`:
duplicate penalties, missing-mandatory penalties, preference bonus. -/
def advContrib (sessions : List Session) (timeSlots : List TimeSlot)
    (genome : Genome) (adv : Advisor) : Int :=
  (advDup genome adv.id : Int) * W_DUPLICATE_SESSION
    + (advMissing sessions genome adv.id : Int) * W_MANDATORY_MISSING
    + (if 0 < maxMatchable sessions timeSlots adv
        then (advPersonalMet genome adv : Int) * W_PREFERENCE_MET else 0)

def instOverflow (rooms : List Room) (timeSlots : List TimeSlot)
    (sessions : List Session) (inst : SInst) : Nat :=
  ((inst.attendees.length : Int)
    - getStrictCapacity inst.roomId inst.sessionId inst.slotId
        (roomsByIdOf rooms) (slotsByIdOf timeSlots) sessions).toNat

def lowerList (s : String) : List Char := s.toList.map Char.toLower

/-- `sessions.filter(s => s.speaker && s.speaker.toLowerCase().includes(adv.name.toLowerCase())).length`. -/
def presentingCount (sessions : List Session) (adv : Advisor) : Nat :=
  sessions.countP (fun s =>
    if s.speaker = "" then false else containsCL (lowerList adv.name) (lowerList s.speaker))

def advUnfilled (sessions : List Session) (timeSlots : List TimeSlot)
    (genome : Genome) (adv : Advisor) : Nat :=
  match jsGet adv.id genome with
  | none => 0
  | some genes =>
    ((sessionSlotsOf timeSlots).length - presentingCount sessions adv) - genes.length

def totalUnfilled (advisors : List Advisor) (sessions : List Session)
    (timeSlots : List TimeSlot) (genome : Genome) : Nat :=
  (advisors.map (advUnfilled sessions timeSlots genome)).sum

/-- The scalar fitness score of `calculateFitness`. -/
def calcScore (advisors : List Advisor) (sessions : List Session)
    (rooms : List Room) (timeSlots : List TimeSlot) (st : St) : Int :=
  (advisors.map (advContrib sessions timeSlots st.genome)).sum
    + ((st.instances.map (fun i =>
        (instOverflow rooms timeSlots sessions i : Int) * W_CAPACITY_VIOLATION)).sum)
    + (if 0 < totalUnfilled advisors sessions timeSlots st.genome
        then (totalUnfilled advisors sessions timeSlots st.genome : Int) * W_UNFILLED_SLOT
        else 0)

/-- The stats snapshot written by `calculateFitness` (percentages computed
with exact rationals in place of JS floating point). -/
def calcStats (advisors : List Advisor) (sessions : List Session)
    (rooms : List Room) (timeSlots : List TimeSlot) (st : St) : Stats :=
  let needed := advisors.length * (mandatoryOf sessions).length
  let met := (advisors.map (fun a => advMet sessions st.genome a.id)).sum
  let totalPref := (advisors.map (fun a =>
    if 0 < maxMatchable sessions timeSlots a then maxMatchable sessions timeSlots a else 0)).sum
  let metPref := (advisors.map (fun a =>
    if 0 < maxMatchable sessions timeSlots a then advPersonalMet st.genome a else 0)).sum
  { mandatoryMetPercent := if 0 < needed then ((met : ℚ) / (needed : ℚ)) * 100 else 100
    capacityViolations := (st.instances.map (instOverflow rooms timeSlots sessions)).sum
    unfilledSlots := totalUnfilled advisors sessions timeSlots st.genome
    preferenceMetPercent := if 0 < totalPref then ((metPref : ℚ) / (totalPref : ℚ)) * 100 else 100
    minSizeViolations := 0
    duplicatesFound := (advisors.map (fun a => advDup st.genome a.id)).sum }

/-! ## Score decomposition and weight ordering -/

def totalDup (advisors : List Advisor) (genome : Genome) : Nat :=
  (advisors.map (fun a => advDup genome a.id)).sum

def totalMissing (advisors : List Advisor) (sessions : List Session) (genome : Genome) : Nat :=
  (advisors.map (fun a => advMissing sessions genome a.id)).sum

def totalOverflow (rooms : List Room) (timeSlots : List TimeSlot)
    (sessions : List Session) (instances : List SInst) : Nat :=
  (instances.map (instOverflow rooms timeSlots sessions)).sum

def totalPrefMet (advisors : List Advisor) (sessions : List Session)
    (timeSlots : List TimeSlot) (genome : Genome) : Nat :=
  (advisors.map (fun a =>
    if 0 < maxMatchable sessions timeSlots a then advPersonalMet genome a else 0)).sum

/-- The fitness score as a linear form in the five defect/reward counts. -/
def fitnessLinear (m d c u p : Nat) : Int :=
  (m : Int) * W_MANDATORY_MISSING + (d : Int) * W_DUPLICATE_SESSION
    + (c : Int) * W_CAPACITY_VIOLATION + (u : Int) * W_UNFILLED_SLOT
    + (p : Int) * W_PREFERENCE_MET

lemma sum_map_add {α : Type} (l : List α) (f g : α → Int) :
    (l.map (fun x => f x + g x)).sum = (l.map f).sum + (l.map g).sum := by
  induction l with
  | nil => simp
  | cons x xs ih => simp [ih]; ring

lemma sum_map_natCast_mul {α : Type} (l : List α) (f : α → Nat) (c : Int) :
    (l.map (fun x => (f x : Int) * c)).sum = ((l.map f).sum : Int) * c := by
  induction l with
  | nil => simp
  | cons x xs ih => simp [ih]; ring

/-- C8. The fitness score decomposes linearly over the defect counts with
the configured weights, and the weights are strictly ordered: removing one
missing-mandatory or duplicate-session defect improves the score strictly
more than removing one unit of capacity overflow, which improves it
strictly more than removing one unfilled slot, which improves it strictly
more than gaining one met preference. -/
theorem fitness_weights_strictly_ordered :
    (∀ (advisors : List Advisor) (sessions : List Session)
       (rooms : List Room) (timeSlots : List TimeSlot) (st : St),
       calcScore advisors sessions rooms timeSlots st
         = fitnessLinear (totalMissing advisors sessions st.genome)
             (totalDup advisors st.genome)
             (totalOverflow rooms timeSlots sessions st.instances)
             (totalUnfilled advisors sessions timeSlots st.genome)
             (totalPrefMet advisors sessions timeSlots st.genome))
    ∧ (∀ m d c u p : Nat,
       (fitnessLinear m d c u p - fitnessLinear (m + 1) d c u p
          > fitnessLinear m d c u p - fitnessLinear m d (c + 1) u p)
       ∧ (fitnessLinear m d c u p - fitnessLinear m (d + 1) c u p
          > fitnessLinear m d c u p - fitnessLinear m d (c + 1) u p)
       ∧ (fitnessLinear m d c u p - fitnessLinear m d (c + 1) u p
          > fitnessLinear m d c u p - fitnessLinear m d c (u + 1) p)
       ∧ (fitnessLinear m d c u p - fitnessLinear m d c (u + 1) p
          > fitnessLinear m d c u (p + 1) - fitnessLinear m d c u p)) := by
  constructor
  · intro advisors sessions rooms timeSlots st
    unfold calcScore fitnessLinear totalMissing totalDup totalOverflow totalPrefMet
    have h1 : (advisors.map (advContrib sessions timeSlots st.genome)).sum
        = ((advisors.map (fun a => advDup st.genome a.id)).sum : Int) * W_DUPLICATE_SESSION
          + ((advisors.map (fun a => advMissing sessions st.genome a.id)).sum : Int) * W_MANDATORY_MISSING
          + ((advisors.map (fun a =>
              if 0 < maxMatchable sessions timeSlots a then advPersonalMet st.genome a else 0)).sum : Int)
            * W_PREFERENCE_MET := by
      unfold advContrib
      rw [show (fun (a : Advisor) =>
            (advDup st.genome a.id : Int) * W_DUPLICATE_SESSION
              + (advMissing sessions st.genome a.id : Int) * W_MANDATORY_MISSING
              + (if 0 < maxMatchable sessions timeSlots a
                  then (advPersonalMet st.genome a : Int) * W_PREFERENCE_MET else 0))
          = (fun (a : Advisor) =>
            ((advDup st.genome a.id : Int) * W_DUPLICATE_SESSION
              + (advMissing sessions st.genome a.id : Int) * W_MANDATORY_MISSING)
              + ((if 0 < maxMatchable sessions timeSlots a
                  then advPersonalMet st.genome a else 0 : Nat) : Int) * W_PREFERENCE_MET)
          from funext (fun a => by split <;> simp)]
      rw [sum_map_add, sum_map_add, sum_map_natCast_mul, sum_map_natCast_mul, sum_map_natCast_mul]
    rw [h1, sum_map_natCast_mul]
    have h2 : (if 0 < totalUnfilled advisors sessions timeSlots st.genome
        then (totalUnfilled advisors sessions timeSlots st.genome : Int) * W_UNFILLED_SLOT else 0)
        = (totalUnfilled advisors sessions timeSlots st.genome : Int) * W_UNFILLED_SLOT := by
      by_cases hU : 0 < totalUnfilled advisors sessions timeSlots st.genome
      · simp [hU]
      · have h0 : totalUnfilled advisors sessions timeSlots st.genome = 0 := by omega
        simp [h0]
    rw [h2]
    ring
  · intro m d c u p
    unfold fitnessLinear W_MANDATORY_MISSING W_DUPLICATE_SESSION W_CAPACITY_VIOLATION
      W_UNFILLED_SLOT W_PREFERENCE_MET
    push_cast
    refine ⟨by nlinarith, by nlinarith, by nlinarith, by nlinarith⟩

/-- Witness for C8: the decomposition at a tiny concrete state and the
weight comparisons at concrete counts. -/
theorem fitness_weights_strictly_ordered_witness :
    calcScore [⟨1, "A", []⟩] [] [] [] ⟨[], []⟩
      = fitnessLinear (totalMissing [⟨1, "A", []⟩] [] [])
          (totalDup [⟨1, "A", []⟩] [])
          (totalOverflow [] [] [] [])
          (totalUnfilled [⟨1, "A", []⟩] [] [] [])
          (totalPrefMet [⟨1, "A", []⟩] [] [] [])
    ∧ (fitnessLinear 1 1 1 1 1 - fitnessLinear 2 1 1 1 1
        > fitnessLinear 1 1 1 1 1 - fitnessLinear 1 1 2 1 1) :=
  ⟨fitness_weights_strictly_ordered.1 [⟨1, "A", []⟩] [] [] [] ⟨[], []⟩,
   (fitness_weights_strictly_ordered.2 1 1 1 1 1).1⟩

/-! ## C1: perfect stats force exactly-once mandatory attendance -/

lemma dupAux_eq_zero_iff (genes : List (Nat × Gene)) : ∀ seen,
    dupAux seen genes = 0 ↔
      ((genes.map (·.2.sessionId)).Nodup ∧ ∀ i ∈ genes.map (·.2.sessionId), i ∉ seen) := by
  induction genes with
  | nil => intro seen; simp [dupAux]
  | cons e gs ih =>
    intro seen
    simp only [dupAux, List.map_cons, List.nodup_cons, List.mem_cons]
    constructor
    · intro h
      have hnotseen : e.2.sessionId ∉ seen := by
        by_contra hc
        simp [hc] at h
      have h2 : dupAux (e.2.sessionId :: seen) gs = 0 := by omega
      obtain ⟨hnd, hall⟩ := (ih _).mp h2
      refine ⟨⟨fun hmem => (hall _ hmem) (List.mem_cons_self _ _), hnd⟩, ?_⟩
      rintro i (rfl | hi)
      · exact hnotseen
      · exact fun hiseen => (hall i hi) (List.mem_cons_of_mem _ hiseen)
    · rintro ⟨⟨hg, hnd⟩, hall⟩
      have hnotseen : e.2.sessionId ∉ seen := hall _ (Or.inl rfl)
      simp only [hnotseen, if_false, Nat.zero_add]
      refine (ih _).mpr ⟨hnd, ?_⟩
      intro i hi
      simp only [List.mem_cons]
      rintro (rfl | hiseen)
      · exact hg hi
      · exact (hall i (Or.inr hi)) hiseen

lemma sum_map_const {α : Type} (l : List α) (c : Nat) :
    (l.map (fun _ => c)).sum = l.length * c := by
  induction l with
  | nil => simp
  | cons a as ih => simp [ih, Nat.succ_mul]; omega

lemma sum_map_eq_of_le {α : Type} (l : List α) (f g : α → Nat)
    (hle : ∀ x ∈ l, f x ≤ g x) (hsum : (l.map f).sum = (l.map g).sum) :
    ∀ x ∈ l, f x = g x := by
  induction l with
  | nil => simp
  | cons a as ih =>
    simp only [List.map_cons, List.sum_cons] at hsum
    have hle_a := hle a (List.mem_cons_self _ _)
    have hle_rest : ∀ x ∈ as, f x ≤ g x := fun x hx => hle x (List.mem_cons_of_mem _ hx)
    have hsle : (as.map f).sum ≤ (as.map g).sum := List.sum_le_sum (fun x hx => hle_rest x hx)
    have ha : f a = g a := by omega
    have hrest : (as.map f).sum = (as.map g).sum := by omega
    intro x hx
    rcases List.mem_cons.mp hx with rfl | hx'
    · exact ha
    · exact ih hle_rest hrest x hx'

lemma nodup_countP_le_one (l : List Nat) (hnd : l.Nodup) (a : Nat) :
    l.countP (fun x => decide (x = a)) ≤ 1 := by
  induction l with
  | nil => simp
  | cons b bs ih =>
    rw [List.countP_cons]
    simp only [List.nodup_cons] at hnd
    by_cases hba : b = a
    · subst hba
      have h0 : bs.countP (fun x => decide (x = b)) = 0 := by
        rw [List.countP_eq_zero]
        intro x hx
        simp only [decide_eq_true_eq]
        rintro rfl
        exact hnd.1 hx
      simp [h0]
    · have := ih hnd.2
      simp [hba]
      omega

lemma advDup_eq_dupAux (genome : Genome) (advId : Nat) :
    advDup genome advId = dupAux [] (advGenesList genome advId) := by
  unfold advDup advGenesList
  cases jsGet advId genome <;> rfl

/-- The mandatory-met percentage is 100 exactly when every (advisor,
mandatory session) pair is attended or there are no such pairs. -/
lemma mandatoryMetPercent_eq_100_iff
    (advisors : List Advisor) (sessions : List Session) (rooms : List Room)
    (timeSlots : List TimeSlot) (st : St) :
    (calcStats advisors sessions rooms timeSlots st).mandatoryMetPercent = 100 ↔
      ((advisors.map (fun a => advMet sessions st.genome a.id)).sum
          = advisors.length * (mandatoryOf sessions).length) ∨
        advisors.length * (mandatoryOf sessions).length = 0 := by
  simp only [calcStats]
  by_cases hneed : 0 < advisors.length * (mandatoryOf sessions).length
  · rw [if_pos hneed]
    have hne : ((advisors.length * (mandatoryOf sessions).length : Nat) : ℚ) ≠ 0 := by
      exact_mod_cast Nat.pos_iff_ne_zero.mp hneed
    rw [div_mul_eq_mul_div, div_eq_iff hne]
    constructor
    · intro hm
      left
      have hq : ((advisors.map (fun a => advMet sessions st.genome a.id)).sum : ℚ)
          = ((advisors.length * (mandatoryOf sessions).length : Nat) : ℚ) := by linarith
      exact_mod_cast hq
    · rintro (hm | hm)
      · rw [hm]; ring
      · exact absurd hm (by omega)
  · rw [if_neg hneed]
    have h0 : advisors.length * (mandatoryOf sessions).length = 0 := by omega
    simp [h0]

/-- C1. For any candidate whose fitness statistics are perfect on the
mandatory front (`mandatoryMetPercent = 100` and `duplicatesFound = 0`, as
any feasible Individual produced by the Repair Pass reports), every advisor
holds exactly one gene for every MANDATORY or PLENARY session — so in
particular the claimed disjunction (exactly one gene, or a presenter
obligation for the session) holds. -/
theorem feasible_mandatory_exactly_once
    (advisors : List Advisor) (sessions : List Session) (rooms : List Room)
    (timeSlots : List TimeSlot) (st : St) (obligations : List (Nat × List Oblig))
    (hm : (calcStats advisors sessions rooms timeSlots st).mandatoryMetPercent = 100)
    (hd : (calcStats advisors sessions rooms timeSlots st).duplicatesFound = 0) :
    ∀ adv ∈ advisors, ∀ s ∈ sessions,
      (s.type = SessionType.MANDATORY ∨ s.type = SessionType.PLENARY) →
      ((advGenesList st.genome adv.id).countP (fun g => decide (g.2.sessionId = s.id)) = 1
       ∨ ∃ e ∈ obligations, ∃ ob ∈ e.2, ob.advId = adv.id ∧ ob.sessionId = s.id) := by
  intro adv hadv s hs hstype
  left
  have hsmem : s ∈ mandatoryOf sessions := by
    unfold mandatoryOf
    rw [List.mem_filter]
    exact ⟨hs, by simpa using hstype⟩
  have hneed : 0 < advisors.length * (mandatoryOf sessions).length :=
    Nat.mul_pos (List.length_pos_of_mem hadv) (List.length_pos_of_mem hsmem)
  have hmet : (advisors.map (fun a => advMet sessions st.genome a.id)).sum
      = advisors.length * (mandatoryOf sessions).length := by
    rcases (mandatoryMetPercent_eq_100_iff advisors sessions rooms timeSlots st).mp hm with h | h
    · exact h
    · omega
  simp only [calcStats] at hd
  -- per-advisor: all mandatory sessions attended
  have hadvMet : advMet sessions st.genome adv.id = (mandatoryOf sessions).length := by
    refine sum_map_eq_of_le advisors (fun a => advMet sessions st.genome a.id)
      (fun _ => (mandatoryOf sessions).length) (fun x _ => List.countP_le_length _) ?_ adv hadv
    rw [hmet, sum_map_const]
  have hattends : advAttends st.genome adv.id s.id := by
    have hall := List.countP_eq_length.mp hadvMet s hsmem
    simpa using hall
  -- no duplicates for this advisor
  have hdup0 : advDup st.genome adv.id = 0 := by
    have := List.sum_eq_zero_iff.mp hd
    exact this _ (List.mem_map.mpr ⟨adv, hadv, rfl⟩)
  rw [advDup_eq_dupAux] at hdup0
  have hnd : ((advGenesList st.genome adv.id).map (·.2.sessionId)).Nodup :=
    ((dupAux_eq_zero_iff _ []).mp hdup0).1
  -- count = 1
  have hle := nodup_countP_le_one _ hnd s.id
  have hpos : 0 < ((advGenesList st.genome adv.id).map (·.2.sessionId)).countP
      (fun x => decide (x = s.id)) := by
    rw [List.countP_pos_iff]
    exact ⟨s.id, hattends, by simp⟩
  rw [List.countP_map] at hle hpos
  have : (advGenesList st.genome adv.id).countP (fun g => decide (g.2.sessionId = s.id))
      = ((advGenesList st.genome adv.id)).countP
        ((fun x => decide (x = s.id)) ∘ (·.2.sessionId)) := rfl
  rw [this]
  omega

/-- Witness for C1 at a concrete perfect candidate. -/
theorem feasible_mandatory_exactly_once_witness :
    ((advGenesList [(1, [(2, (⟨5, 2, "a"⟩ : Gene))])] 1).countP
        (fun g => decide (g.2.sessionId = 5)) = 1
     ∨ ∃ e ∈ ([] : List (Nat × List Oblig)), ∃ ob ∈ e.2, ob.advId = 1 ∧ ob.sessionId = 5) :=
  feasible_mandatory_exactly_once [⟨1, "A", []⟩] [⟨5, "M", "", SessionType.MANDATORY, 1, none⟩]
    [⟨"a", "A", 30⟩] [⟨2, 1, "l", SlotType.SESSION⟩]
    ⟨[(1, [(2, ⟨5, 2, "a"⟩)])], [⟨"i1", 5, 2, "a", [1]⟩]⟩ []
    ((mandatoryMetPercent_eq_100_iff [⟨1, "A", []⟩]
        [⟨5, "M", "", SessionType.MANDATORY, 1, none⟩] [⟨"a", "A", 30⟩]
        [⟨2, 1, "l", SlotType.SESSION⟩]
        ⟨[(1, [(2, ⟨5, 2, "a"⟩)])], [⟨"i1", 5, 2, "a", [1]⟩]⟩).mpr (by decide))
    (by decide)
    ⟨1, "A", []⟩ (by decide) ⟨5, "M", "", SessionType.MANDATORY, 1, none⟩ (by decide) (by decide)

/-! ## C9: termination of `solveSchedule`'s two loops

The loop bodies (local search, breeding, repair + re-scoring) are taken as
opaque step functions: they do not touch the loop counters, the wall clock
is an oracle `time : Nat → Nat` giving `Date.now()` at the `generation`-th
guard check, and the source's unbounded `while` guards are kept verbatim. -/

def MAX_GENERATIONS : Nat := 3000
def TIME_LIMIT_MS : Nat := 300000
def SAFE_BREAK_LIMIT : Nat := 200

def isPerfectSchedule (stats : Stats) : Bool :=
  decide (stats.mandatoryMetPercent = 100) && decide (stats.unfilledSlots = 0)
    && decide (stats.capacityViolations = 0) && decide (stats.duplicatesFound = 0)

/-- One source iteration: guard `generation < MAX_GENERATIONS &&
Date.now() - startTime < TIME_LIMIT_MS`; refine (sort, local search on the
top K, re-sort); break if the best is perfect; otherwise breed the next
population and increment `generation`. -/
def genLoopAux {Pop : Type} (localStep breedStep : Pop → Pop) (perfect : Pop → Bool)
    (time : Nat → Nat) (startTime : Nat) : Nat → Nat → Pop → Nat × Pop
  | 0, gen, pop => (gen, pop)
  | fuel + 1, gen, pop =>
    if gen < MAX_GENERATIONS ∧ time gen - startTime < TIME_LIMIT_MS then
      if perfect (localStep pop) = true then (gen, localStep pop)
      else genLoopAux localStep breedStep perfect time startTime fuel (gen + 1) (breedStep (localStep pop))
    else (gen, pop)

def runGenerationLoop {Pop : Type} (localStep breedStep : Pop → Pop) (perfect : Pop → Bool)
    (time : Nat → Nat) (startTime : Nat) (pop : Pop) : Nat × Pop :=
  genLoopAux localStep breedStep perfect time startTime MAX_GENERATIONS 0 pop

/-- The strict-repair loop's guard:
`mandatoryMetPercent < 100 || unfilledSlots > 0 || capacityViolations > 0`. -/
def needsStrictRepair (s : Stats) : Bool :=
  decide (s.mandatoryMetPercent < 100) || decide (0 < s.unfilledSlots)
    || decide (0 < s.capacityViolations)

def repairLoopAux {Ind : Type} (statsOf : Ind → Stats) (step : Ind → Ind) :
    Nat → Nat → Ind → Nat × Ind
  | 0, attempts, best => (attempts, best)
  | fuel + 1, attempts, best =>
    if attempts < SAFE_BREAK_LIMIT ∧ needsStrictRepair (statsOf best) = true then
      repairLoopAux statsOf step fuel (attempts + 1) (step best)
    else (attempts, best)

def runStrictRepairLoop {Ind : Type} (statsOf : Ind → Stats) (step : Ind → Ind)
    (best : Ind) : Nat × Ind :=
  repairLoopAux statsOf step SAFE_BREAK_LIMIT 0 best

lemma genLoopAux_bound {Pop : Type} (localStep breedStep : Pop → Pop) (perfect : Pop → Bool)
    (time : Nat → Nat) (startTime : Nat) :
    ∀ (fuel gen : Nat) (pop : Pop),
      (genLoopAux localStep breedStep perfect time startTime fuel gen pop).1 ≤ gen + fuel := by
  intro fuel
  induction fuel with
  | zero => intro gen pop; simp [genLoopAux]
  | succ f ih =>
    intro gen pop
    unfold genLoopAux
    split
    · split
      · omega
      · have := ih (gen + 1) (breedStep (localStep pop))
        omega
    · omega

lemma genLoopAux_exit {Pop : Type} (localStep breedStep : Pop → Pop) (perfect : Pop → Bool)
    (time : Nat → Nat) (startTime : Nat) :
    ∀ (fuel gen : Nat) (pop : Pop), gen + fuel = MAX_GENERATIONS →
      (genLoopAux localStep breedStep perfect time startTime fuel gen pop).1 < MAX_GENERATIONS →
      TIME_LIMIT_MS ≤ time (genLoopAux localStep breedStep perfect time startTime fuel gen pop).1 - startTime
        ∨ perfect (genLoopAux localStep breedStep perfect time startTime fuel gen pop).2 = true := by
  intro fuel
  induction fuel with
  | zero =>
    intro gen pop hinv hlt
    simp [genLoopAux] at hlt
    omega
  | succ f ih =>
    intro gen pop hinv hlt
    have hgen : gen < MAX_GENERATIONS := by omega
    unfold genLoopAux at hlt ⊢
    by_cases htime : time gen - startTime < TIME_LIMIT_MS
    · rw [if_pos ⟨hgen, htime⟩] at hlt ⊢
      by_cases hperf : perfect (localStep pop) = true
      · simp [hperf]
      · simp only [hperf, if_false] at hlt ⊢
        exact ih (gen + 1) (breedStep (localStep pop)) (by omega) hlt
    · rw [if_neg (by tauto)] at hlt ⊢
      left
      simp only
      omega

lemma repairLoopAux_bound {Ind : Type} (statsOf : Ind → Stats) (step : Ind → Ind) :
    ∀ (fuel attempts : Nat) (best : Ind),
      (repairLoopAux statsOf step fuel attempts best).1 ≤ attempts + fuel := by
  intro fuel
  induction fuel with
  | zero => intro attempts best; simp [repairLoopAux]
  | succ f ih =>
    intro attempts best
    unfold repairLoopAux
    split
    · have := ih (attempts + 1) (step best)
      omega
    · omega

lemma repairLoopAux_exit {Ind : Type} (statsOf : Ind → Stats) (step : Ind → Ind) :
    ∀ (fuel attempts : Nat) (best : Ind), attempts + fuel = SAFE_BREAK_LIMIT →
      (repairLoopAux statsOf step fuel attempts best).1 < SAFE_BREAK_LIMIT →
      needsStrictRepair (statsOf (repairLoopAux statsOf step fuel attempts best).2) = false := by
  intro fuel
  induction fuel with
  | zero =>
    intro attempts best hinv hlt
    simp [repairLoopAux] at hlt
    omega
  | succ f ih =>
    intro attempts best hinv hlt
    have hatt : attempts < SAFE_BREAK_LIMIT := by omega
    unfold repairLoopAux at hlt ⊢
    by_cases hneeds : needsStrictRepair (statsOf best) = true
    · rw [if_pos ⟨hatt, hneeds⟩] at hlt ⊢
      exact ih (attempts + 1) (step best) (by omega) hlt
    · rw [if_neg (by tauto)] at hlt ⊢
      simpa using hneeds

lemma repairLoopAux_le100 {Ind : Type} (statsOf : Ind → Stats) (step : Ind → Ind)
    (hstep : ∀ ind, (statsOf (step ind)).mandatoryMetPercent ≤ 100) :
    ∀ (fuel attempts : Nat) (best : Ind), (statsOf best).mandatoryMetPercent ≤ 100 →
      (statsOf (repairLoopAux statsOf step fuel attempts best).2).mandatoryMetPercent ≤ 100 := by
  intro fuel
  induction fuel with
  | zero => intro attempts best hb; simpa [repairLoopAux] using hb
  | succ f ih =>
    intro attempts best hb
    unfold repairLoopAux
    split
    · exact ih (attempts + 1) (step best) (hstep best)
    · simpa using hb

/-- The mandatory-met percentage reported by the fitness evaluator never
exceeds 100. -/
lemma calcStats_mandatory_le_100 (advisors : List Advisor) (sessions : List Session)
    (rooms : List Room) (timeSlots : List TimeSlot) (st : St) :
    (calcStats advisors sessions rooms timeSlots st).mandatoryMetPercent ≤ 100 := by
  simp only [calcStats]
  by_cases hneed : 0 < advisors.length * (mandatoryOf sessions).length
  · rw [if_pos hneed]
    have hmet_le : (advisors.map (fun a => advMet sessions st.genome a.id)).sum
        ≤ advisors.length * (mandatoryOf sessions).length := by
      calc (advisors.map (fun a => advMet sessions st.genome a.id)).sum
          ≤ (advisors.map (fun _ => (mandatoryOf sessions).length)).sum :=
            List.sum_le_sum (fun x _ => List.countP_le_length _)
        _ = advisors.length * (mandatoryOf sessions).length := sum_map_const _ _
    have hposq : (0 : ℚ) < ((advisors.length * (mandatoryOf sessions).length : Nat) : ℚ) := by
      exact_mod_cast hneed
    rw [div_mul_eq_mul_div, div_le_iff₀ hposq]
    have : ((advisors.map (fun a => advMet sessions st.genome a.id)).sum : ℚ)
        ≤ ((advisors.length * (mandatoryOf sessions).length : Nat) : ℚ) := by
      exact_mod_cast hmet_le
    nlinarith
  · rw [if_neg hneed]

/-- C9. `solveSchedule` terminates: the generation loop executes at most
`MAX_GENERATIONS` iterations and, when it stops with the counter still
below the cap, either the wall-clock budget is exhausted at that check or
the refined population was perfect; the strict repair loop runs at most
`SAFE_BREAK_LIMIT` attempts and stops below the cap exactly when the best
Individual's stats satisfy `mandatoryMetPercent = 100`,
`unfilledSlots = 0` and `capacityViolations = 0` (using that the fitness
evaluator never reports a percentage above 100). -/
theorem solveSchedule_terminates :
    (∀ (Pop : Type) (localStep breedStep : Pop → Pop) (perfect : Pop → Bool)
       (time : Nat → Nat) (startTime : Nat) (pop : Pop),
       (runGenerationLoop localStep breedStep perfect time startTime pop).1 ≤ MAX_GENERATIONS
       ∧ ((runGenerationLoop localStep breedStep perfect time startTime pop).1 < MAX_GENERATIONS →
           TIME_LIMIT_MS ≤ time (runGenerationLoop localStep breedStep perfect time startTime pop).1 - startTime
             ∨ perfect (runGenerationLoop localStep breedStep perfect time startTime pop).2 = true))
    ∧ (∀ (Ind : Type) (statsOf : Ind → Stats) (step : Ind → Ind) (best : Ind),
       (∀ ind, (statsOf (step ind)).mandatoryMetPercent ≤ 100) →
       (statsOf best).mandatoryMetPercent ≤ 100 →
       (runStrictRepairLoop statsOf step best).1 ≤ SAFE_BREAK_LIMIT
       ∧ ((runStrictRepairLoop statsOf step best).1 < SAFE_BREAK_LIMIT →
           (statsOf (runStrictRepairLoop statsOf step best).2).mandatoryMetPercent = 100
           ∧ (statsOf (runStrictRepairLoop statsOf step best).2).unfilledSlots = 0
           ∧ (statsOf (runStrictRepairLoop statsOf step best).2).capacityViolations = 0))
    ∧ (∀ s : Stats, s.mandatoryMetPercent ≤ 100 →
       (needsStrictRepair s = false ↔
         s.mandatoryMetPercent = 100 ∧ s.unfilledSlots = 0 ∧ s.capacityViolations = 0))
    ∧ (∀ (advisors : List Advisor) (sessions : List Session) (rooms : List Room)
       (timeSlots : List TimeSlot) (st : St),
       (calcStats advisors sessions rooms timeSlots st).mandatoryMetPercent ≤ 100) := by
  have hguard : ∀ s : Stats, s.mandatoryMetPercent ≤ 100 →
      (needsStrictRepair s = false ↔
        s.mandatoryMetPercent = 100 ∧ s.unfilledSlots = 0 ∧ s.capacityViolations = 0) := by
    intro s hle
    unfold needsStrictRepair
    simp only [Bool.or_eq_false_iff, decide_eq_false_iff_not, not_lt, Nat.le_zero]
    constructor
    · rintro ⟨⟨h1, h2⟩, h3⟩
      exact ⟨le_antisymm hle h1, h2, h3⟩
    · rintro ⟨h1, h2, h3⟩
      exact ⟨⟨le_of_eq h1.symm, h2⟩, h3⟩
  refine ⟨?_, ?_, hguard, calcStats_mandatory_le_100⟩
  · intro Pop localStep breedStep perfect time startTime pop
    exact ⟨genLoopAux_bound localStep breedStep perfect time startTime MAX_GENERATIONS 0 pop,
      genLoopAux_exit localStep breedStep perfect time startTime MAX_GENERATIONS 0 pop rfl⟩
  · intro Ind statsOf step best hstep hbest
    refine ⟨repairLoopAux_bound statsOf step SAFE_BREAK_LIMIT 0 best, ?_⟩
    intro hlt
    have hexit := repairLoopAux_exit statsOf step SAFE_BREAK_LIMIT 0 best rfl hlt
    have hle := repairLoopAux_le100 statsOf step hstep SAFE_BREAK_LIMIT 0 best hbest
    exact (hguard _ hle).mp hexit

/-- Witness for C9 at concrete loop instantiations. -/
theorem solveSchedule_terminates_witness :
    ((runGenerationLoop (fun n => n) (fun n => n + 1) (fun _ => true) (fun _ => 0) 0 (0 : Nat)).1
        ≤ MAX_GENERATIONS
      ∧ ((runGenerationLoop (fun n => n) (fun n => n + 1) (fun _ => true) (fun _ => 0) 0 (0 : Nat)).1
            < MAX_GENERATIONS →
          TIME_LIMIT_MS ≤ (fun _ => 0 : Nat → Nat)
              (runGenerationLoop (fun n => n) (fun n => n + 1) (fun _ => true) (fun _ => 0) 0 (0 : Nat)).1 - 0
            ∨ (fun _ => true : Nat → Bool)
                (runGenerationLoop (fun n => n) (fun n => n + 1) (fun _ => true) (fun _ => 0) 0 (0 : Nat)).2
              = true))
    ∧ ((runStrictRepairLoop (fun s => s) (fun _ => (⟨100, 0, 0, 100, 0, 0⟩ : Stats))
          (⟨100, 0, 0, 100, 0, 0⟩ : Stats)).1 ≤ SAFE_BREAK_LIMIT
      ∧ ((runStrictRepairLoop (fun s => s) (fun _ => (⟨100, 0, 0, 100, 0, 0⟩ : Stats))
            (⟨100, 0, 0, 100, 0, 0⟩ : Stats)).1 < SAFE_BREAK_LIMIT →
          ((fun (s : Stats) => s)
              (runStrictRepairLoop (fun s => s) (fun _ => (⟨100, 0, 0, 100, 0, 0⟩ : Stats))
                (⟨100, 0, 0, 100, 0, 0⟩ : Stats)).2).mandatoryMetPercent = 100
          ∧ ((fun (s : Stats) => s)
              (runStrictRepairLoop (fun s => s) (fun _ => (⟨100, 0, 0, 100, 0, 0⟩ : Stats))
                (⟨100, 0, 0, 100, 0, 0⟩ : Stats)).2).unfilledSlots = 0
          ∧ ((fun (s : Stats) => s)
              (runStrictRepairLoop (fun s => s) (fun _ => (⟨100, 0, 0, 100, 0, 0⟩ : Stats))
                (⟨100, 0, 0, 100, 0, 0⟩ : Stats)).2).capacityViolations = 0)) :=
  ⟨solveSchedule_terminates.1 Nat (fun n => n) (fun n => n + 1) (fun _ => true) (fun _ => 0) 0 0,
   solveSchedule_terminates.2.1 Stats (fun s => s) (fun _ => ⟨100, 0, 0, 100, 0, 0⟩)
     ⟨100, 0, 0, 100, 0, 0⟩ (fun _ => le_refl _) (le_refl _)⟩

/-! ## Repair Pass ("Bulldozer"): state operations -/

def maxSafeInteger : Int := 9007199254740991

def listModify {α : Type} (f : α → α) : List α → Nat → List α
  | [], _ => []
  | x :: xs, 0 => f x :: xs
  | x :: xs, n + 1 => x :: listModify f xs n

/-- Update the attendee list of the instance at position `idx` (the model
of mutating the JS instance object in place). -/
def updAtt (st : St) (idx : Nat) (f : List Nat → List Nat) : St :=
  { st with instances :=
      listModify (fun i => { i with attendees := f i.attendees }) st.instances idx }

def geneAt (g : Genome) (advId slot : Nat) : Option Gene :=
  match jsGet advId g with
  | none => none
  | some m => jsGet slot m

/-- `ind.genome.get(advId)` followed by `.set(slot, gene)` (the entry is
assumed to exist at every call site, as the source's `!` assertion does;
a missing entry is created). -/
def gSetGene (g : Genome) (advId slot : Nat) (gene : Gene) : Genome :=
  match jsGet advId g with
  | none => g ++ [(advId, [(slot, gene)])]
  | some m => jsSet advId (jsSet slot gene m) g

def gEnsureEntry (g : Genome) (advId : Nat) : Genome :=
  match jsGet advId g with
  | none => g ++ [(advId, [])]
  | some _ => g

def gDelGene (g : Genome) (advId slot : Nat) : Genome :=
  match jsGet advId g with
  | none => g
  | some m => jsSet advId (jsDelete slot m) g

def capOf (roomsById : List (String × Room)) (slotsById : List (Nat × TimeSlot))
    (sessions : List Session) (i : SInst) : Int :=
  getStrictCapacity i.roomId i.sessionId i.slotId roomsById slotsById sessions

def lenAt (st : St) (idx : Nat) : Nat :=
  match st.instances.get? idx with
  | none => 0
  | some i => i.attendees.length

/-- `removeGene(advId, slotId)`: drop the gene and filter the advisor out
of the attendee list of the first instance matching the gene's
(slot, room) pair. -/
def removeGene (st : St) (advId slot : Nat) : St :=
  match geneAt st.genome advId slot with
  | none => st
  | some gene =>
    let st1 : St := { st with genome := gDelGene st.genome advId slot }
    match st1.instances.findIdx? (fun i => decide (i.slotId = slot ∧ i.roomId = gene.roomId)) with
    | none => st1
    | some idx => updAtt st1 idx (fun l => l.filter (fun a => decide (¬ a = advId)))

/-- `addGene(advId, inst)` with the instance passed by its position. -/
def addGene (st : St) (advId idx : Nat) : St :=
  match st.instances.get? idx with
  | none => st
  | some inst =>
    let st1 := removeGene st advId inst.slotId
    let st2 : St := { st1 with
      genome := gSetGene st1.genome advId inst.slotId ⟨inst.sessionId, inst.slotId, inst.roomId⟩ }
    updAtt st2 idx (fun l => l ++ [advId])

def isBusy (st : St) (advId slot : Nat) : Bool :=
  (geneAt st.genome advId slot).isSome

def isAttendingSession (st : St) (advId sessionId : Nat) : Bool :=
  match jsGet advId st.genome with
  | none => false
  | some m => m.any (fun e => decide (e.2.sessionId = sessionId))

def hasPresenterConflict (obligations : List (Nat × List Oblig)) (advId slot : Nat) : Bool :=
  match jsGet slot obligations with
  | none => false
  | some l => l.any (fun o => decide (o.advId = advId))

/-- `Array.from(slotsById.values()).filter(s => s.type === SESSION).map(s => s.id)`
computed from the map passed to the Repair Pass. -/
def sessionSlotsOfMap (slotsById : List (Nat × TimeSlot)) : List Nat :=
  ((slotsById.map (·.2)).filter (fun s => decide (s.type = SlotType.SESSION))).map (·.id)

/-! ## Presenter-obligation enforcement (`enforcePresenterObligations`) -/

def enforceOb (masterOptions : List SInst) (slotKey : Nat) (ob : Oblig) (st : St) : St :=
  let st1 : St := { st with genome := gEnsureEntry st.genome ob.advId }
  match masterOptions.find? (fun i =>
      decide (i.sessionId = ob.sessionId ∧ i.slotId = ob.slotId ∧ i.roomId = ob.roomId)) with
  | none => st1
  | some t =>
    let st2 : St := { st1 with
      genome := gSetGene st1.genome ob.advId slotKey ⟨t.sessionId, t.slotId, t.roomId⟩ }
    match st2.instances.findIdx? (fun i =>
        decide (i.sessionId = t.sessionId ∧ i.slotId = t.slotId ∧ i.roomId = t.roomId)) with
    | none => st2
    | some idx =>
      match st2.instances.get? idx with
      | none => st2
      | some existing =>
        if ob.advId ∈ existing.attendees then st2
        else updAtt st2 idx (fun l => l ++ [ob.advId])

def enforcePresenterObligations (masterOptions : List SInst)
    (obligations : List (Nat × List Oblig)) (st : St) : St :=
  obligations.foldl (fun st e => e.2.foldl (fun st ob => enforceOb masterOptions e.1 ob st) st) st

/-! ## Phase 1: force mandatory and plenary attendance -/

def phase1Step (roomsById : List (String × Room)) (slotsById : List (Nat × TimeSlot))
    (sessions : List Session) (obligations : List (Nat × List Oblig))
    (adv : Advisor) (ms : Session) (st : St) : St :=
  if isAttendingSession st adv.id ms.id then st
  else
    let instBySess := (st.instances.enum).filter (fun p => decide (p.2.sessionId = ms.id))
    let sorted := ssort (fun a b =>
      decide (capOf roomsById slotsById sessions b.2 - (b.2.attendees.length : Int)
        ≤ capOf roomsById slotsById sessions a.2 - (a.2.attendees.length : Int))) instBySess
    match sorted.find? (fun p =>
        !isBusy st adv.id p.2.slotId &&
        decide ((p.2.attendees.length : Int) < capOf roomsById slotsById sessions p.2)) with
    | some p => addGene st adv.id p.1
    | none =>
      match sorted.find? (fun p =>
          !hasPresenterConflict obligations adv.id p.2.slotId &&
          (match geneAt st.genome adv.id p.2.slotId with
           | none => true
           | some g =>
             decide ((sessions.find? (fun s => decide (s.id = g.sessionId))).map (·.type)
               = some SessionType.ELECTIVE))) with
      | some p => addGene st adv.id p.1
      | none =>
        match sorted.head? with
        | none => st
        | some p =>
          let currentSession := (geneAt st.genome adv.id p.2.slotId).bind
            (fun g => sessions.find? (fun s => decide (s.id = g.sessionId)))
          if !hasPresenterConflict obligations adv.id p.2.slotId &&
              (match currentSession with
               | none => true
               | some cs => decide (¬ cs.type = SessionType.MANDATORY ∧ ¬ cs.type = SessionType.PLENARY)) then
            addGene st adv.id p.1
          else st

def phase1 (advisors : List Advisor) (sessions : List Session)
    (roomsById : List (String × Room)) (slotsById : List (Nat × TimeSlot))
    (obligations : List (Nat × List Oblig)) (st : St) : St :=
  advisors.foldl (fun st adv =>
    (mandatoryOf sessions).foldl (fun st ms =>
      phase1Step roomsById slotsById sessions obligations adv ms st) st) st

/-! ## Phase 2: fill holes -/

/-- `genes.set(slotId, {…choice}); choice.attendees.push(adv.id)`. -/
def fillSlot (st : St) (advId slot idx : Nat) : St :=
  match st.instances.get? idx with
  | none => st
  | some inst =>
    let st1 : St := { st with
      genome := gSetGene st.genome advId slot ⟨inst.sessionId, inst.slotId, inst.roomId⟩ }
    updAtt st1 idx (fun l => l ++ [advId])

def phase2Step (roomsById : List (String × Room)) (slotsById : List (Nat × TimeSlot))
    (sessions : List Session) (obligations : List (Nat × List Oblig))
    (adv : Advisor) (slot : Nat) (st : St) : St :=
  if hasPresenterConflict obligations adv.id slot then st
  else if (geneAt st.genome adv.id slot).isSome then st
  else
    let possible := (st.instances.enum).filter (fun p => decide (p.2.slotId = slot))
    let validOptions := possible.filter (fun p => !isAttendingSession st adv.id p.2.sessionId)
    let withSpace := validOptions.filter (fun p =>
      decide ((p.2.attendees.length : Int) < capOf roomsById slotsById sessions p.2))
    match withSpace.find? (fun p => decide (p.2.sessionId ∈ adv.preferences)) with
    | some pref => fillSlot st adv.id slot pref.1
    | none =>
      match withSpace.head? with
      | some first => fillSlot st adv.id slot first.1
      | none =>
        match (ssort (fun a b => decide (a.2.attendees.length ≤ b.2.attendees.length))
            validOptions).head? with
        | some best => fillSlot st adv.id slot best.1
        | none => st

def phase2 (advisors : List Advisor) (sessions : List Session)
    (roomsById : List (String × Room)) (slotsById : List (Nat × TimeSlot))
    (obligations : List (Nat × List Oblig)) (st : St) : St :=
  let sessionSlots := sessionSlotsOfMap slotsById
  advisors.foldl (fun st adv =>
    sessionSlots.foldl (fun st slot =>
      phase2Step roomsById slotsById sessions obligations adv slot st) st) st

/-! ## Phase 3: deduplicate and refill -/

/-- Rank of a session in a preference list as the source's
`preferences.forEach((p, idx) => map.set(p, idx))` builds it: the *last*
index for duplicated preferences, `MAX_SAFE_INTEGER` when absent. -/
def prefRank (prefs : List Nat) (p : Nat) : Int :=
  match ((prefs.enum.filter (fun q => decide (q.2 = p))).map (·.1)).getLast? with
  | none => maxSafeInteger
  | some i => (i : Int)

def phase3Remove (adv : Advisor) (entries : List (Nat × Gene)) :
    St × List (Nat × Nat) → St × List (Nat × Nat) :=
  fun acc => entries.foldl (fun acc e =>
    if acc.2.any (fun q => decide (q.1 = e.2.sessionId)) then
      (removeGene acc.1 adv.id e.1, acc.2)
    else
      (acc.1, acc.2 ++ [(e.2.sessionId, e.1)])) acc

def phase3RefillStep (roomsById : List (String × Room)) (slotsById : List (Nat × TimeSlot))
    (sessions : List Session) (obligations : List (Nat × List Oblig)) (adv : Advisor)
    (acc : St × List (Nat × Nat)) (slot : Nat) : St × List (Nat × Nat) :=
  let st := acc.1
  let seen := acc.2
  if (geneAt st.genome adv.id slot).isSome then acc
  else if hasPresenterConflict obligations adv.id slot then acc
  else
    let options := (st.instances.enum).filter (fun p =>
      decide (p.2.slotId = slot) && !(seen.any (fun q => decide (q.1 = p.2.sessionId))) &&
      decide ((p.2.attendees.length : Int) < capOf roomsById slotsById sessions p.2))
    let sorted := ssort (fun a b =>
      decide (prefRank adv.preferences a.2.sessionId ≤ prefRank adv.preferences b.2.sessionId)) options
    match sorted.head? with
    | none => acc
    | some c => (addGene st adv.id c.1, seen ++ [(c.2.sessionId, slot)])

def phase3 (advisors : List Advisor) (sessions : List Session)
    (roomsById : List (String × Room)) (slotsById : List (Nat × TimeSlot))
    (obligations : List (Nat × List Oblig)) (st : St) : St :=
  let sessionSlots := sessionSlotsOfMap slotsById
  advisors.foldl (fun st adv =>
    let entries := match jsGet adv.id st.genome with
                   | none => []
                   | some m => m
    let acc1 := phase3Remove adv entries (st, [])
    (sessionSlots.foldl
      (phase3RefillStep roomsById slotsById sessions obligations adv) acc1).1) st

/-! ## Phase 4: rebalance overfull instances -/

/-- `preferenceRanks`: keyed by advisor id (last advisor wins on duplicate
ids, as `Map.set` does), defaulting to `MAX_SAFE_INTEGER`. -/
def preferenceRankOf (advisors : List Advisor) (advId sessId : Nat) : Int :=
  match jsGet advId (mkMap (advisors.map (fun a => (a.id, a.preferences)))) with
  | none => maxSafeInteger
  | some prefs => prefRank prefs sessId

def rebalanceLoop (advisors : List Advisor) (sessions : List Session)
    (roomsById : List (String × Room)) (slotsById : List (Nat × TimeSlot))
    (obligations : List (Nat × List Oblig)) (idx : Nat) (cap : Int) :
    Nat → St → St
  | 0, st => st
  | fuel + 1, st =>
    match st.instances.get? idx with
    | none => st
    | some inst =>
      if (inst.attendees.length : Int) ≤ cap then st
      else
        match (ssort (fun a b =>
            decide (preferenceRankOf advisors b inst.sessionId
              ≤ preferenceRankOf advisors a inst.sessionId)) inst.attendees).head? with
        | none => st
        | some cand =>
          if hasPresenterConflict obligations cand inst.slotId then st
          else
            let st1 := removeGene st cand inst.slotId
            let altOptions := (st1.instances.enum).filter (fun p =>
              decide (p.2.slotId = inst.slotId) && decide (¬ p.2.sessionId = inst.sessionId) &&
              decide ((p.2.attendees.length : Int) < capOf roomsById slotsById sessions p.2) &&
              decide (¬ preferenceRankOf advisors cand p.2.sessionId = maxSafeInteger))
            let sortedAlt := ssort (fun a b =>
              decide (preferenceRankOf advisors cand a.2.sessionId
                  < preferenceRankOf advisors cand b.2.sessionId
                ∨ (preferenceRankOf advisors cand a.2.sessionId
                      = preferenceRankOf advisors cand b.2.sessionId
                    ∧ capOf roomsById slotsById sessions b.2 - (b.2.attendees.length : Int)
                      ≤ capOf roomsById slotsById sessions a.2 - (a.2.attendees.length : Int)))) altOptions
            let fallback := (st1.instances.enum).find? (fun p =>
              decide (p.2.slotId = inst.slotId) && decide (¬ p.2.sessionId = inst.sessionId) &&
              decide ((p.2.attendees.length : Int) < capOf roomsById slotsById sessions p.2))
            let st2 :=
              match sortedAlt.head? with
              | some d => addGene st1 cand d.1
              | none =>
                match fallback with
                | some d => addGene st1 cand d.1
                | none => st1
            rebalanceLoop advisors sessions roomsById slotsById obligations idx cap fuel st2

def phase4 (advisors : List Advisor) (sessions : List Session)
    (roomsById : List (String × Room)) (slotsById : List (Nat × TimeSlot))
    (obligations : List (Nat × List Oblig)) (st : St) : St :=
  let overfull := (st.instances.enum).filter (fun p =>
    decide (capOf roomsById slotsById sessions p.2 < (p.2.attendees.length : Int)))
  overfull.foldl (fun st p =>
    rebalanceLoop advisors sessions roomsById slotsById obligations p.1
      (capOf roomsById slotsById sessions p.2) (lenAt st p.1) st) st

/-! ## The full Repair Pass -/

def refineScheduleWithBulldozer (advisors : List Advisor) (sessions : List Session)
    (masterOptions : List SInst) (roomsById : List (String × Room))
    (slotsById : List (Nat × TimeSlot)) (obligations : List (Nat × List Oblig))
    (st : St) : St :=
  let st0 := enforcePresenterObligations masterOptions obligations st
  let st1 := phase1 advisors sessions roomsById slotsById obligations st0
  let st2 := phase2 advisors sessions roomsById slotsById obligations st1
  let st3 := phase3 advisors sessions roomsById slotsById obligations st2
  phase4 advisors sessions roomsById slotsById obligations st3

/-! ## Instance builder (`buildInstancesFromGenome`) -/

def buildInstancesFromGenome (genome : Genome) (masterOptions : List SInst) : List SInst :=
  let base := masterOptions.map (fun m => { m with attendees := ([] : List Nat) })
  genome.foldl (fun insts entry =>
    entry.2.foldl (fun insts e =>
      match insts.findIdx? (fun i =>
          decide (i.sessionId = e.2.sessionId ∧ i.slotId = e.2.slotId ∧ i.roomId = e.2.roomId)) with
      | none => insts
      | some idx => listModify (fun i => { i with attendees := i.attendees ++ [entry.1] }) insts idx)
      insts) base

/-! ## Concrete runs of the Repair Pass

Small fully-concrete inputs on which the Repair Pass is evaluated exactly.
Obligations are always the ones the Presenter-Obligation Builder derives
from the same sessions, advisors and master options. -/

def cex2Advisors : List Advisor := [⟨1, "Alice", [1]⟩, ⟨2, "Bob", []⟩]
def cex2Sessions : List Session := [⟨1, "X", "Bob", SessionType.ELECTIVE, 1, none⟩]
def cex2Rooms : List Room := [⟨"a", "A", 1⟩]
def cex2Slots : List TimeSlot := [⟨2, 1, "08.15 - 09.15", SlotType.SESSION⟩]
def cex2Master : List SInst := [⟨"i1", 1, 2, "a", []⟩]
def cex2St : St := ⟨[(1, [(2, ⟨1, 2, "a"⟩)])], [⟨"i1", 1, 2, "a", [1]⟩]⟩

def cex2Run : St :=
  refineScheduleWithBulldozer cex2Advisors cex2Sessions cex2Master
    (roomsByIdOf cex2Rooms) (slotsByIdOf cex2Slots)
    (buildPresenterObligations cex2Sessions cex2Advisors cex2Master) cex2St

/-- C2 counterexample: after the Repair Pass, the single instance (room
capacity 1) still carries two attendees — the speaker Bob was force-seated
by obligation enforcement and the rebalancing phase refuses to evict him,
leaving the instance above capacity. -/
theorem post_repair_capacity_counterexample :
    ∃ inst ∈ cex2Run.instances,
      capOf (roomsByIdOf cex2Rooms) (slotsByIdOf cex2Slots) cex2Sessions inst
        < (inst.attendees.length : Int) := by decide

def cex3Advisors : List Advisor := [⟨1, "Alice", [10]⟩]
def cex3Sessions : List Session :=
  [⟨10, "X", "", SessionType.ELECTIVE, 1, none⟩, ⟨20, "Y", "", SessionType.ELECTIVE, 1, none⟩]
def cex3Rooms : List Room := [⟨"r1", "R1", 5⟩, ⟨"r2", "R2", 5⟩, ⟨"r3", "R3", 0⟩]
def cex3Slots : List TimeSlot :=
  [⟨2, 1, "08.15 - 09.15", SlotType.SESSION⟩, ⟨4, 1, "09.30 - 10.15", SlotType.SESSION⟩]
def cex3Master : List SInst :=
  [⟨"iA", 10, 2, "r1", []⟩, ⟨"iB", 10, 4, "r2", []⟩, ⟨"iC", 20, 4, "r3", []⟩]
def cex3St : St :=
  ⟨[(1, [(2, ⟨10, 2, "r1"⟩), (4, ⟨20, 4, "r3"⟩)])],
   [⟨"iA", 10, 2, "r1", [1]⟩, ⟨"iB", 10, 4, "r2", []⟩, ⟨"iC", 20, 4, "r3", [1]⟩]⟩

def cex3Run : St :=
  refineScheduleWithBulldozer cex3Advisors cex3Sessions cex3Master
    (roomsByIdOf cex3Rooms) (slotsByIdOf cex3Slots)
    (buildPresenterObligations cex3Sessions cex3Advisors cex3Master) cex3St

/-- C3 failing input: Phase 4 evicts Alice from the overfull instance of
session 20 and relocates her — using a filter that only excludes the
*evicting* instance's session — into the slot-4 instance of session 10,
which she already attends at slot 2: the returned genome holds two genes
for session 10. -/
theorem phase4_reintroduces_duplicate :
    (advGenesList cex3Run.genome 1).countP (fun g => decide (g.2.sessionId = 10)) = 2
    ∧ advDup cex3Run.genome 1 = 1 := by decide

def cex4Advisors : List Advisor := [⟨2, "Bob", []⟩]
def cex4Sessions : List Session :=
  [⟨1, "S", "Bob", SessionType.ELECTIVE, 1, none⟩, ⟨2, "T", "", SessionType.ELECTIVE, 1, none⟩]
def cex4Rooms : List Room := [⟨"a", "A", 5⟩, ⟨"b", "B", 5⟩]
def cex4Slots : List TimeSlot := [⟨2, 1, "08.15 - 09.15", SlotType.SESSION⟩]
def cex4Master : List SInst := [⟨"iS", 1, 2, "a", []⟩, ⟨"iT", 2, 2, "b", []⟩]
def cex4St : St := ⟨[(2, [(2, ⟨2, 2, "b"⟩)])], [⟨"iS", 1, 2, "a", []⟩, ⟨"iT", 2, 2, "b", [2]⟩]⟩

def cex4Run : St :=
  refineScheduleWithBulldozer cex4Advisors cex4Sessions cex4Master
    (roomsByIdOf cex4Rooms) (slotsByIdOf cex4Slots)
    (buildPresenterObligations cex4Sessions cex4Advisors cex4Master) cex4St

/-- C4 failing input: obligation enforcement overwrites Bob's slot-2 gene
with his speaking instance but leaves him in the old instance's attendee
list, so rebuilding the instances from the returned genome no longer
reproduces the stored attendee lists. -/
theorem consistency_broken_by_repair :
    ¬ buildInstancesFromGenome cex4Run.genome cex4Master = cex4Run.instances := by decide

def cex5Advisors : List Advisor := [⟨1, "Alice", []⟩, ⟨2, "Bob", []⟩]
def cex5Sessions : List Session := [⟨1, "X", "", SessionType.ELECTIVE, 1, none⟩]
def cex5Rooms : List Room := [⟨"a", "A", 1⟩]
def cex5Slots : List TimeSlot := [⟨2, 1, "08.15 - 09.15", SlotType.SESSION⟩]
def cex5Master : List SInst := [⟨"i1", 1, 2, "a", []⟩]
def cex5St : St :=
  ⟨[(1, [(2, ⟨1, 2, "a"⟩)]), (2, [(2, ⟨1, 2, "a"⟩)])], [⟨"i1", 1, 2, "a", [1, 2]⟩]⟩

def cex5Run (st : St) : St :=
  refineScheduleWithBulldozer cex5Advisors cex5Sessions cex5Master
    (roomsByIdOf cex5Rooms) (slotsByIdOf cex5Slots)
    (buildPresenterObligations cex5Sessions cex5Advisors cex5Master) st

/-- C5 counterexample: on this Individual the first Repair Pass drops
Alice from the over-capacity instance, and the second pass re-seats Alice
and drops Bob instead — the two runs give different genomes and different
instances, so the pass is not idempotent. -/
theorem repair_pass_not_idempotent :
    ¬ cex5Run (cex5Run cex5St) = cex5Run cex5St := by decide

/-! ## Structural feasibility and the Repair Pass as a no-op (C5, amended) -/

lemma jsSet_same {α β : Type} [DecidableEq α] (k : α) (v : β) :
    ∀ l : List (α × β), jsGet k l = some v → jsSet k v l = l := by
  intro l
  induction l with
  | nil => intro h; simp [jsGet] at h
  | cons p ps ih =>
    intro h
    unfold jsGet at h
    unfold jsSet
    by_cases hk : p.1 = k
    · rw [List.find?_cons_of_pos _ (by simpa using hk)] at h
      simp only [Option.map_some', Option.some.injEq] at h
      have hpeq : (k, v) = p := by
        obtain ⟨p1, p2⟩ := p
        simp only at hk h
        simp [hk, h]
      rw [if_pos hk, hpeq]
    · rw [List.find?_cons_of_neg _ (by simpa using hk)] at h
      rw [if_neg hk, ih h]

lemma gSetGene_same (g : Genome) (advId slot : Nat) (gene : Gene)
    (h : geneAt g advId slot = some gene) : gSetGene g advId slot gene = g := by
  unfold geneAt at h
  unfold gSetGene
  cases hg : jsGet advId g with
  | none =>
    rw [hg] at h
    simp at h
  | some m =>
    rw [hg] at h
    have h' : jsGet slot m = some gene := h
    show jsSet advId (jsSet slot gene m) g = g
    rw [jsSet_same _ _ _ h', jsSet_same _ _ _ hg]

lemma gEnsureEntry_of_isSome (g : Genome) (advId : Nat)
    (h : (jsGet advId g).isSome = true) : gEnsureEntry g advId = g := by
  unfold gEnsureEntry
  cases hg : jsGet advId g with
  | none => rw [hg] at h; simp at h
  | some m => rfl

lemma foldl_fixed {α β : Type} (f : β → α → β) (b : β) :
    ∀ l : List α, (∀ x ∈ l, f b x = b) → l.foldl f b = b := by
  intro l
  induction l with
  | nil => intro _; rfl
  | cons a as ih =>
    intro h
    rw [List.foldl_cons, h a (List.mem_cons_self _ _)]
    exact ih (fun x hx => h x (List.mem_cons_of_mem _ hx))

/-- Presenter obligations already materialized in the state: every
obligated advisor has a genome entry, and whenever an obligation's target
instance exists on the master menu its gene is set and (when the state has
a matching instance) the advisor is listed on it.  This is exactly what
`enforcePresenterObligations` establishes and re-running it then changes
nothing. -/
abbrev obligationsEnforced (masterOptions : List SInst)
    (obligations : List (Nat × List Oblig)) (st : St) : Prop :=
  ∀ e ∈ obligations, ∀ ob ∈ e.2,
    (jsGet ob.advId st.genome).isSome = true ∧
    ∀ t ∈ (masterOptions.find? (fun i =>
        decide (i.sessionId = ob.sessionId ∧ i.slotId = ob.slotId ∧ i.roomId = ob.roomId))).toList,
      geneAt st.genome ob.advId e.1 = some ⟨t.sessionId, t.slotId, t.roomId⟩ ∧
      ∀ idx ∈ (st.instances.findIdx? (fun i =>
          decide (i.sessionId = t.sessionId ∧ i.slotId = t.slotId ∧ i.roomId = t.roomId))).toList,
        ∀ ex ∈ (st.instances.get? idx).toList, ob.advId ∈ ex.attendees

lemma enforceOb_noop (masterOptions : List SInst) (slotKey : Nat) (ob : Oblig) (st : St)
    (hsome : (jsGet ob.advId st.genome).isSome = true)
    (hrest : ∀ t ∈ (masterOptions.find? (fun i =>
        decide (i.sessionId = ob.sessionId ∧ i.slotId = ob.slotId ∧ i.roomId = ob.roomId))).toList,
      geneAt st.genome ob.advId slotKey = some ⟨t.sessionId, t.slotId, t.roomId⟩ ∧
      ∀ idx ∈ (st.instances.findIdx? (fun i =>
          decide (i.sessionId = t.sessionId ∧ i.slotId = t.slotId ∧ i.roomId = t.roomId))).toList,
        ∀ ex ∈ (st.instances.get? idx).toList, ob.advId ∈ ex.attendees) :
    enforceOb masterOptions slotKey ob st = st := by
  unfold enforceOb
  rw [gEnsureEntry_of_isSome st.genome ob.advId hsome]
  cases hfind : masterOptions.find? (fun i =>
      decide (i.sessionId = ob.sessionId ∧ i.slotId = ob.slotId ∧ i.roomId = ob.roomId)) with
  | none => rfl
  | some t =>
    obtain ⟨hgene, hinner⟩ := hrest t (by rw [hfind]; simp)
    dsimp only
    rw [gSetGene_same _ _ _ _ hgene]
    cases hidx : st.instances.findIdx? (fun i =>
        decide (i.sessionId = t.sessionId ∧ i.slotId = t.slotId ∧ i.roomId = t.roomId)) with
    | none => rfl
    | some idx =>
      dsimp only
      cases hget : st.instances.get? idx with
      | none => rfl
      | some ex =>
        have hmem := hinner idx (by rw [hidx]; simp) ex (by rw [hget]; simp)
        dsimp only
        rw [if_pos hmem]

lemma enforcePresenterObligations_noop (masterOptions : List SInst)
    (obligations : List (Nat × List Oblig)) (st : St)
    (h : obligationsEnforced masterOptions obligations st) :
    enforcePresenterObligations masterOptions obligations st = st := by
  unfold enforcePresenterObligations
  refine foldl_fixed _ _ _ (fun e he => ?_)
  refine foldl_fixed _ _ _ (fun ob hob => ?_)
  obtain ⟨hsome, hrest⟩ := h e he ob hob
  exact enforceOb_noop masterOptions e.1 ob st hsome hrest

lemma phase1Step_noop (roomsById : List (String × Room)) (slotsById : List (Nat × TimeSlot))
    (sessions : List Session) (obligations : List (Nat × List Oblig))
    (adv : Advisor) (ms : Session) (st : St)
    (h : isAttendingSession st adv.id ms.id = true) :
    phase1Step roomsById slotsById sessions obligations adv ms st = st := by
  unfold phase1Step
  rw [if_pos (by simp [h])]

lemma phase1_noop (advisors : List Advisor) (sessions : List Session)
    (roomsById : List (String × Room)) (slotsById : List (Nat × TimeSlot))
    (obligations : List (Nat × List Oblig)) (st : St)
    (h : ∀ adv ∈ advisors, ∀ ms ∈ mandatoryOf sessions,
      isAttendingSession st adv.id ms.id = true) :
    phase1 advisors sessions roomsById slotsById obligations st = st := by
  unfold phase1
  refine foldl_fixed _ _ _ (fun adv hadv => ?_)
  refine foldl_fixed _ _ _ (fun ms hms => ?_)
  exact phase1Step_noop roomsById slotsById sessions obligations adv ms st (h adv hadv ms hms)

lemma phase2Step_noop (roomsById : List (String × Room)) (slotsById : List (Nat × TimeSlot))
    (sessions : List Session) (obligations : List (Nat × List Oblig))
    (adv : Advisor) (slot : Nat) (st : St)
    (h : (geneAt st.genome adv.id slot).isSome = true
      ∨ hasPresenterConflict obligations adv.id slot = true) :
    phase2Step roomsById slotsById sessions obligations adv slot st = st := by
  unfold phase2Step
  by_cases hconf : hasPresenterConflict obligations adv.id slot = true
  · rw [if_pos (by simp [hconf])]
  · have hgene : (geneAt st.genome adv.id slot).isSome = true := by tauto
    rw [if_neg (by simp [hconf]), if_pos (by simp [hgene])]

lemma phase2_noop (advisors : List Advisor) (sessions : List Session)
    (roomsById : List (String × Room)) (slotsById : List (Nat × TimeSlot))
    (obligations : List (Nat × List Oblig)) (st : St)
    (h : ∀ adv ∈ advisors, ∀ slot ∈ sessionSlotsOfMap slotsById,
      (geneAt st.genome adv.id slot).isSome = true
        ∨ hasPresenterConflict obligations adv.id slot = true) :
    phase2 advisors sessions roomsById slotsById obligations st = st := by
  unfold phase2
  refine foldl_fixed _ _ _ (fun adv hadv => ?_)
  refine foldl_fixed _ _ _ (fun slot hslot => ?_)
  exact phase2Step_noop roomsById slotsById sessions obligations adv slot st (h adv hadv slot hslot)

lemma phase3Remove_go (adv : Advisor) :
    ∀ (entries : List (Nat × Gene)) (st : St) (seen : List (Nat × Nat)),
      (entries.map (·.2.sessionId)).Nodup →
      (∀ e ∈ entries, (seen.any (fun q => decide (q.1 = e.2.sessionId))) = false) →
      phase3Remove adv entries (st, seen)
        = (st, seen ++ entries.map (fun e => (e.2.sessionId, e.1))) := by
  intro entries
  induction entries with
  | nil => intro st seen _ _; simp [phase3Remove]
  | cons e es ih =>
    intro st seen hnd hseen
    unfold phase3Remove at ih ⊢
    rw [List.foldl_cons]
    simp only [hseen e (List.mem_cons_self _ _), Bool.false_eq_true, if_false]
    rw [ih st (seen ++ [(e.2.sessionId, e.1)]) (by simpa using (List.nodup_cons.mp hnd).2) ?_]
    · simp
    · intro e' he'
      rw [List.any_append]
      simp only [Bool.or_eq_false_iff]
      constructor
      · exact hseen e' (List.mem_cons_of_mem _ he')
      · simp only [List.any_cons, List.any_nil, Bool.or_false, decide_eq_false_iff_not]
        intro hcontra
        apply (List.nodup_cons.mp hnd).1
        show e.2.sessionId ∈ _
        rw [hcontra]
        exact List.mem_map.mpr ⟨e', he', rfl⟩

lemma phase3RefillStep_noop (roomsById : List (String × Room)) (slotsById : List (Nat × TimeSlot))
    (sessions : List Session) (obligations : List (Nat × List Oblig)) (adv : Advisor)
    (st : St) (seen : List (Nat × Nat)) (slot : Nat)
    (h : (geneAt st.genome adv.id slot).isSome = true
      ∨ hasPresenterConflict obligations adv.id slot = true) :
    phase3RefillStep roomsById slotsById sessions obligations adv (st, seen) slot = (st, seen) := by
  unfold phase3RefillStep
  by_cases hgene : (geneAt st.genome adv.id slot).isSome = true
  · rw [if_pos (by simpa using hgene)]
  · have hconf : hasPresenterConflict obligations adv.id slot = true := by tauto
    rw [if_neg (by simpa using hgene), if_pos (by simp [hconf])]

lemma phase3_noop (advisors : List Advisor) (sessions : List Session)
    (roomsById : List (String × Room)) (slotsById : List (Nat × TimeSlot))
    (obligations : List (Nat × List Oblig)) (st : St)
    (hnd : ∀ adv ∈ advisors, ((advGenesList st.genome adv.id).map (·.2.sessionId)).Nodup)
    (hcov : ∀ adv ∈ advisors, ∀ slot ∈ sessionSlotsOfMap slotsById,
      (geneAt st.genome adv.id slot).isSome = true
        ∨ hasPresenterConflict obligations adv.id slot = true) :
    phase3 advisors sessions roomsById slotsById obligations st = st := by
  unfold phase3
  refine foldl_fixed _ _ _ (fun adv hadv => ?_)
  have hentries : (match jsGet adv.id st.genome with
      | none => []
      | some m => m) = advGenesList st.genome adv.id := by
    unfold advGenesList
    cases jsGet adv.id st.genome <;> rfl
  rw [hentries]
  dsimp only
  rw [phase3Remove_go adv (advGenesList st.genome adv.id) st [] (hnd adv hadv) (by simp)]
  rw [foldl_fixed _ _ _ (fun slot hslot =>
    phase3RefillStep_noop roomsById slotsById sessions obligations adv st _ slot
      (hcov adv hadv slot hslot))]

lemma mem_enumFrom_get? {α : Type} :
    ∀ (l : List α) (n : Nat) (p : Nat × α), p ∈ l.enumFrom n →
      n ≤ p.1 ∧ l.get? (p.1 - n) = some p.2 := by
  intro l
  induction l with
  | nil => intro n p h; simp [List.enumFrom] at h
  | cons x xs ih =>
    intro n p h
    simp only [List.enumFrom, List.mem_cons] at h
    rcases h with rfl | h
    · simp
    · obtain ⟨h1, h2⟩ := ih (n + 1) p h
      refine ⟨by omega, ?_⟩
      have heq : p.1 - n = (p.1 - (n + 1)) + 1 := by omega
      rw [heq]
      simpa using h2

lemma mem_enum_get? {α : Type} (l : List α) (p : Nat × α) (h : p ∈ l.enum) :
    l.get? p.1 = some p.2 := by
  have := (mem_enumFrom_get? l 0 p h).2
  simpa using this

lemma phase4_noop (advisors : List Advisor) (sessions : List Session)
    (roomsById : List (String × Room)) (slotsById : List (Nat × TimeSlot))
    (obligations : List (Nat × List Oblig)) (st : St)
    (h : ∀ i ∈ st.instances, (i.attendees.length : Int) ≤ capOf roomsById slotsById sessions i) :
    phase4 advisors sessions roomsById slotsById obligations st = st := by
  unfold phase4
  have hempty : (st.instances.enum).filter (fun p =>
      decide (capOf roomsById slotsById sessions p.2 < (p.2.attendees.length : Int))) = [] := by
    rw [List.filter_eq_nil_iff]
    intro p hp
    have hmem : p.2 ∈ st.instances := by
      have := mem_enum_get? st.instances p hp
      exact List.get?_mem this
    simp only [decide_eq_true_eq, not_lt]
    exact h p.2 hmem
  rw [hempty]
  rfl

/-- C5 (amended). On a structurally feasible Individual — presenter
obligations already enforced, every advisor attending every mandatory and
plenary session, every session slot carrying a gene or a presenter
obligation, no duplicated session per advisor, and no instance above its
effective capacity — the Repair Pass changes nothing: genome and
instances are returned unchanged, and hence re-scoring yields the same
fitness and stats. -/
theorem repair_pass_noop_on_feasible
    (advisors : List Advisor) (sessions : List Session) (masterOptions : List SInst)
    (roomsById : List (String × Room)) (slotsById : List (Nat × TimeSlot))
    (obligations : List (Nat × List Oblig)) (st : St)
    (hob : obligationsEnforced masterOptions obligations st)
    (hmand : ∀ adv ∈ advisors, ∀ ms ∈ mandatoryOf sessions,
      isAttendingSession st adv.id ms.id = true)
    (hcov : ∀ adv ∈ advisors, ∀ slot ∈ sessionSlotsOfMap slotsById,
      (geneAt st.genome adv.id slot).isSome = true
        ∨ hasPresenterConflict obligations adv.id slot = true)
    (hnd : ∀ adv ∈ advisors, ((advGenesList st.genome adv.id).map (·.2.sessionId)).Nodup)
    (hcap : ∀ i ∈ st.instances,
      (i.attendees.length : Int) ≤ capOf roomsById slotsById sessions i) :
    refineScheduleWithBulldozer advisors sessions masterOptions roomsById slotsById obligations st = st
    ∧ ∀ (rooms : List Room) (timeSlots : List TimeSlot),
      calcScore advisors sessions rooms timeSlots
          (refineScheduleWithBulldozer advisors sessions masterOptions roomsById slotsById obligations st)
        = calcScore advisors sessions rooms timeSlots st
      ∧ calcStats advisors sessions rooms timeSlots
          (refineScheduleWithBulldozer advisors sessions masterOptions roomsById slotsById obligations st)
        = calcStats advisors sessions rooms timeSlots st := by
  have hmain : refineScheduleWithBulldozer advisors sessions masterOptions roomsById
      slotsById obligations st = st := by
    unfold refineScheduleWithBulldozer
    dsimp only
    rw [enforcePresenterObligations_noop masterOptions obligations st hob,
      phase1_noop advisors sessions roomsById slotsById obligations st hmand,
      phase2_noop advisors sessions roomsById slotsById obligations st hcov,
      phase3_noop advisors sessions roomsById slotsById obligations st hnd hcov,
      phase4_noop advisors sessions roomsById slotsById obligations st hcap]
  exact ⟨hmain, fun rooms timeSlots => by rw [hmain]; exact ⟨rfl, rfl⟩⟩

/-- Witness for C5's amended statement at a concrete feasible Individual. -/
theorem repair_pass_noop_on_feasible_witness :
    refineScheduleWithBulldozer [⟨1, "A", []⟩] [⟨5, "M", "", SessionType.MANDATORY, 1, none⟩]
        [⟨"i1", 5, 2, "a", []⟩] (roomsByIdOf [⟨"a", "A", 30⟩])
        (slotsByIdOf [⟨2, 1, "l", SlotType.SESSION⟩]) []
        ⟨[(1, [(2, ⟨5, 2, "a"⟩)])], [⟨"i1", 5, 2, "a", [1]⟩]⟩
      = ⟨[(1, [(2, ⟨5, 2, "a"⟩)])], [⟨"i1", 5, 2, "a", [1]⟩]⟩
    ∧ ∀ (rooms : List Room) (timeSlots : List TimeSlot),
      calcScore [⟨1, "A", []⟩] [⟨5, "M", "", SessionType.MANDATORY, 1, none⟩] rooms timeSlots
          (refineScheduleWithBulldozer [⟨1, "A", []⟩] [⟨5, "M", "", SessionType.MANDATORY, 1, none⟩]
            [⟨"i1", 5, 2, "a", []⟩] (roomsByIdOf [⟨"a", "A", 30⟩])
            (slotsByIdOf [⟨2, 1, "l", SlotType.SESSION⟩]) []
            ⟨[(1, [(2, ⟨5, 2, "a"⟩)])], [⟨"i1", 5, 2, "a", [1]⟩]⟩)
        = calcScore [⟨1, "A", []⟩] [⟨5, "M", "", SessionType.MANDATORY, 1, none⟩] rooms timeSlots
            ⟨[(1, [(2, ⟨5, 2, "a"⟩)])], [⟨"i1", 5, 2, "a", [1]⟩]⟩
      ∧ calcStats [⟨1, "A", []⟩] [⟨5, "M", "", SessionType.MANDATORY, 1, none⟩] rooms timeSlots
          (refineScheduleWithBulldozer [⟨1, "A", []⟩] [⟨5, "M", "", SessionType.MANDATORY, 1, none⟩]
            [⟨"i1", 5, 2, "a", []⟩] (roomsByIdOf [⟨"a", "A", 30⟩])
            (slotsByIdOf [⟨2, 1, "l", SlotType.SESSION⟩]) []
            ⟨[(1, [(2, ⟨5, 2, "a"⟩)])], [⟨"i1", 5, 2, "a", [1]⟩]⟩)
        = calcStats [⟨1, "A", []⟩] [⟨5, "M", "", SessionType.MANDATORY, 1, none⟩] rooms timeSlots
            ⟨[(1, [(2, ⟨5, 2, "a"⟩)])], [⟨"i1", 5, 2, "a", [1]⟩]⟩ :=
  repair_pass_noop_on_feasible [⟨1, "A", []⟩] [⟨5, "M", "", SessionType.MANDATORY, 1, none⟩]
    [⟨"i1", 5, 2, "a", []⟩] (roomsByIdOf [⟨"a", "A", 30⟩])
    (slotsByIdOf [⟨2, 1, "l", SlotType.SESSION⟩]) []
    ⟨[(1, [(2, ⟨5, 2, "a"⟩)])], [⟨"i1", 5, 2, "a", [1]⟩]⟩
    (by decide) (by decide) (by decide) (by decide) (by decide)

/-! ## Post-repair capacity bound (C2, amended): basic lemmas -/

lemma listModify_get?_eq {α : Type} (f : α → α) :
    ∀ (l : List α) (n : Nat), (listModify f l n).get? n = (l.get? n).map f := by
  intro l
  induction l with
  | nil => intro n; simp [listModify]
  | cons x xs ih =>
    intro n
    cases n with
    | zero => simp [listModify]
    | succ m => simpa [listModify] using ih m

lemma listModify_get?_ne {α : Type} (f : α → α) :
    ∀ (l : List α) (n m : Nat), ¬ m = n → (listModify f l n).get? m = l.get? m := by
  intro l
  induction l with
  | nil => intro n m _; simp [listModify]
  | cons x xs ih =>
    intro n m hne
    cases n with
    | zero =>
      cases m with
      | zero => exact absurd rfl hne
      | succ k => simp [listModify]
    | succ n' =>
      cases m with
      | zero => simp [listModify]
      | succ k => simpa [listModify] using ih n' k (by omega)

lemma jsGet_nil {α β : Type} [DecidableEq α] (k : α) : jsGet k ([] : List (α × β)) = none := rfl

lemma jsGet_cons {α β : Type} [DecidableEq α] (k : α) (p : α × β) (ps : List (α × β)) :
    jsGet k (p :: ps) = if p.1 = k then some p.2 else jsGet k ps := by
  unfold jsGet
  by_cases hk : p.1 = k
  · rw [List.find?_cons_of_pos _ (by simpa using hk), if_pos hk]
    rfl
  · rw [List.find?_cons_of_neg _ (by simpa using hk), if_neg hk]

lemma jsGet_jsSet_eq {α β : Type} [DecidableEq α] (k : α) (v : β) :
    ∀ l : List (α × β), jsGet k (jsSet k v l) = some v := by
  intro l
  induction l with
  | nil => simp [jsSet, jsGet_cons]
  | cons p ps ih =>
    unfold jsSet
    by_cases hk : p.1 = k
    · simp [hk, jsGet_cons]
    · simp [hk, jsGet_cons, ih]

lemma jsGet_jsSet_ne {α β : Type} [DecidableEq α] (k k' : α) (v : β) (hne : ¬ k' = k) :
    ∀ l : List (α × β), jsGet k' (jsSet k v l) = jsGet k' l := by
  intro l
  have hkk' : ¬ k = k' := fun h => hne h.symm
  induction l with
  | nil => simp [jsSet, jsGet_cons, hkk', jsGet_nil]
  | cons p ps ih =>
    unfold jsSet
    by_cases hk : p.1 = k
    · rw [if_pos hk, jsGet_cons, jsGet_cons, if_neg hkk', if_neg (by rw [hk]; exact hkk')]
    · rw [if_neg hk, jsGet_cons, jsGet_cons]
      by_cases hk' : p.1 = k'
      · rw [if_pos hk', if_pos hk']
      · rw [if_neg hk', if_neg hk', ih]

lemma jsGet_jsDelete_eq {α β : Type} [DecidableEq α] (k : α) :
    ∀ l : List (α × β), jsGet k (jsDelete k l) = none := by
  intro l
  induction l with
  | nil => rfl
  | cons p ps ih =>
    unfold jsDelete at ih ⊢
    by_cases hk : p.1 = k
    · rw [List.filter_cons_of_neg (by simpa using hk)]
      exact ih
    · rw [List.filter_cons_of_pos (by simpa using hk), jsGet_cons, if_neg hk]
      exact ih

lemma jsGet_jsDelete_ne {α β : Type} [DecidableEq α] (k k' : α) (hne : ¬ k' = k) :
    ∀ l : List (α × β), jsGet k' (jsDelete k l) = jsGet k' l := by
  intro l
  induction l with
  | nil => rfl
  | cons p ps ih =>
    unfold jsDelete at ih ⊢
    by_cases hk : p.1 = k
    · rw [List.filter_cons_of_neg (by simpa using hk), ih, jsGet_cons,
        if_neg (by rw [hk]; exact fun h => hne h.symm)]
    · rw [List.filter_cons_of_pos (by simpa using hk), jsGet_cons, jsGet_cons]
      by_cases hk' : p.1 = k'
      · rw [if_pos hk', if_pos hk']
      · rw [if_neg hk', if_neg hk', ih]

lemma jsGet_append_single_ne {α β : Type} [DecidableEq α] (k k' : α) (v : β) (hne : ¬ k' = k) :
    ∀ l : List (α × β), jsGet k' (l ++ [(k, v)]) = jsGet k' l := by
  intro l
  induction l with
  | nil =>
    have hkk' : ¬ k = k' := fun h => hne h.symm
    simp [jsGet_cons, hkk', jsGet_nil]
  | cons p ps ih =>
    rw [List.cons_append, jsGet_cons, jsGet_cons]
    by_cases hk' : p.1 = k'
    · rw [if_pos hk', if_pos hk']
    · rw [if_neg hk', if_neg hk', ih]

lemma jsGet_append_single_eq {α β : Type} [DecidableEq α] (k : α) (v : β) :
    ∀ l : List (α × β), jsGet k l = none → jsGet k (l ++ [(k, v)]) = some v := by
  intro l
  induction l with
  | nil => intro _; simp [jsGet_cons]
  | cons p ps ih =>
    intro h
    rw [jsGet_cons] at h
    by_cases hk : p.1 = k
    · rw [if_pos hk] at h; simp at h
    · rw [if_neg hk] at h
      rw [List.cons_append, jsGet_cons, if_neg hk]
      exact ih h

lemma geneAt_def (g : Genome) (a s : Nat) :
    geneAt g a s = (jsGet a g).bind (fun m => jsGet s m) := by
  unfold geneAt
  cases jsGet a g <;> rfl

lemma geneAt_gSetGene_self (g : Genome) (a s : Nat) (gene : Gene) :
    geneAt (gSetGene g a s gene) a s = some gene := by
  unfold gSetGene
  cases hg : jsGet a g with
  | none =>
    rw [geneAt_def, jsGet_append_single_eq _ _ _ hg]
    simp [jsGet_cons]
  | some m =>
    rw [geneAt_def, jsGet_jsSet_eq]
    simp [jsGet_jsSet_eq]

lemma geneAt_gSetGene_other (g : Genome) (a s a' s' : Nat) (gene : Gene)
    (h : ¬ a' = a ∨ ¬ s' = s) :
    geneAt (gSetGene g a s gene) a' s' = geneAt g a' s' := by
  unfold gSetGene
  cases hg : jsGet a g with
  | none =>
    by_cases ha : a' = a
    · subst ha
      obtain h | h := h
      · exact absurd rfl h
      · rw [geneAt_def, jsGet_append_single_eq _ _ _ hg, geneAt_def, hg]
        simp only [Option.some_bind, Option.none_bind]
        rw [jsGet_cons, if_neg (fun hc => h hc.symm)]
        rfl
    · rw [geneAt_def, jsGet_append_single_ne _ _ _ ha, geneAt_def]
  | some m =>
    by_cases ha : a' = a
    · subst ha
      obtain h | h := h
      · exact absurd rfl h
      · rw [geneAt_def, jsGet_jsSet_eq, geneAt_def, hg]
        simp [jsGet_jsSet_ne _ _ _ h]
    · rw [geneAt_def, jsGet_jsSet_ne _ _ _ ha, geneAt_def]

lemma geneAt_gDelGene_self (g : Genome) (a s : Nat) :
    geneAt (gDelGene g a s) a s = none := by
  unfold gDelGene
  cases hg : jsGet a g with
  | none => rw [geneAt_def, hg]; rfl
  | some m =>
    rw [geneAt_def, jsGet_jsSet_eq]
    simp [jsGet_jsDelete_eq]

lemma geneAt_gDelGene_other (g : Genome) (a s a' s' : Nat)
    (h : ¬ a' = a ∨ ¬ s' = s) :
    geneAt (gDelGene g a s) a' s' = geneAt g a' s' := by
  unfold gDelGene
  cases hg : jsGet a g with
  | none => rfl
  | some m =>
    by_cases ha : a' = a
    · subst ha
      obtain h | h := h
      · exact absurd rfl h
      · rw [geneAt_def, jsGet_jsSet_eq, geneAt_def, hg]
        simp [jsGet_jsDelete_ne _ _ h]
    · rw [geneAt_def, jsGet_jsSet_ne _ _ _ ha, geneAt_def]

lemma findIdx?_spec {α : Type} (p : α → Bool) :
    ∀ (l : List α) (n : Nat), l.findIdx? p = some n →
      ∃ x, l.get? n = some x ∧ p x = true := by
  intro l
  induction l with
  | nil => intro n h; simp at h
  | cons x xs ih =>
    intro n h
    rw [List.findIdx?_cons] at h
    by_cases hp : p x
    · rw [if_pos hp] at h
      have hn : n = 0 := by simpa using h.symm
      subst hn
      exact ⟨x, rfl, hp⟩
    · rw [if_neg hp, List.findIdx?_succ] at h
      cases hfs : xs.findIdx? p with
      | none => rw [hfs] at h; simp at h
      | some m =>
        rw [hfs] at h
        simp only [Option.map_some', Option.some.injEq] at h
        subst h
        obtain ⟨y, hy, hpy⟩ := ih m hfs
        exact ⟨y, by simpa using hy, hpy⟩

lemma findIdx?_eq_of_unique {α β : Type} [DecidableEq β] (f : α → β) (p : α → Bool) :
    ∀ (l : List α) (n : Nat) (x : α), (l.map f).Nodup → l.get? n = some x → p x = true →
      (∀ y ∈ l, p y = true → f y = f x) → l.findIdx? p = some n := by
  intro l
  induction l with
  | nil => intro n x _ hget; simp at hget
  | cons z zs ih =>
    intro n x hnd hget hpx hkey
    rw [List.map_cons, List.nodup_cons] at hnd
    rw [List.findIdx?_cons]
    by_cases hp : p z
    · rw [if_pos hp]
      cases n with
      | zero => rfl
      | succ m =>
        exfalso
        have hxzs : x ∈ zs := List.get?_mem (by simpa using hget)
        have hfz : f z = f x := hkey z (List.mem_cons_self _ _) hp
        apply hnd.1
        rw [hfz]
        exact List.mem_map.mpr ⟨x, hxzs, rfl⟩
    · rw [if_neg hp, List.findIdx?_succ]
      cases n with
      | zero =>
        have hxz : z = x := by simpa using hget
        exact absurd (by rw [hxz]; exact hpx) hp
      | succ m =>
        rw [ih m x hnd.2 (by simpa using hget) hpx
          (fun y hy hpy => hkey y (List.mem_cons_of_mem _ hy) hpy)]
        rfl

lemma insSorted_mem {α : Type} (le : α → α → Bool) (x y : α) :
    ∀ l : List α, y ∈ insSorted le x l ↔ y = x ∨ y ∈ l := by
  intro l
  induction l with
  | nil => simp [insSorted]
  | cons z zs ih =>
    unfold insSorted
    split
    · rw [List.mem_cons, ih, List.mem_cons]
      tauto
    · simp only [List.mem_cons]

lemma ssort_mem_aux {α : Type} (le : α → α → Bool) :
    ∀ (l : List α) (acc : List α) (y : α),
      y ∈ l.foldl (fun acc x => insSorted le x acc) acc → y ∈ acc ∨ y ∈ l := by
  intro l
  induction l with
  | nil => intro acc y h; exact Or.inl h
  | cons x xs ih =>
    intro acc y h
    rw [List.foldl_cons] at h
    rcases ih (insSorted le x acc) y h with h' | h'
    · rcases (insSorted_mem le x y acc).mp h' with rfl | h''
      · exact Or.inr (List.mem_cons_self _ _)
      · exact Or.inl h''
    · exact Or.inr (List.mem_cons_of_mem _ h')

lemma ssort_mem {α : Type} (le : α → α → Bool) (l : List α) (y : α)
    (h : y ∈ ssort le l) : y ∈ l := by
  rcases ssort_mem_aux le l [] y h with h' | h'
  · simp at h'
  · exact h'

lemma insSorted_length {α : Type} (le : α → α → Bool) (x : α) :
    ∀ l : List α, (insSorted le x l).length = l.length + 1 := by
  intro l
  induction l with
  | nil => rfl
  | cons z zs ih =>
    unfold insSorted
    split
    · simp [ih]
    · simp

lemma ssort_length {α : Type} (le : α → α → Bool) (l : List α) :
    (ssort le l).length = l.length := by
  suffices h : ∀ (l acc : List α),
      (l.foldl (fun acc x => insSorted le x acc) acc).length = acc.length + l.length by
    simpa using h l []
  intro l
  induction l with
  | nil => intro acc; simp
  | cons x xs ih =>
    intro acc
    rw [List.foldl_cons, ih, insSorted_length]
    simp only [List.length_cons]
    omega

lemma ssort_nil_iff {α : Type} (le : α → α → Bool) (l : List α) :
    ssort le l = [] ↔ l = [] := by
  constructor
  · intro h
    have := ssort_length le l
    rw [h] at this
    exact List.length_eq_zero.mp this.symm
  · rintro rfl
    rfl

lemma head?_mem {α : Type} (l : List α) (a : α) (h : l.head? = some a) : a ∈ l := by
  cases l with
  | nil => simp at h
  | cons x xs =>
    have : x = a := by simpa using h
    exact this ▸ List.mem_cons_self _ _

lemma get?_mem_enumFrom {α : Type} :
    ∀ (l : List α) (k n : Nat) (x : α), l.get? n = some x → (k + n, x) ∈ l.enumFrom k := by
  intro l
  induction l with
  | nil => intro k n x h; simp at h
  | cons z zs ih =>
    intro k n x h
    cases n with
    | zero =>
      have : z = x := by simpa using h
      subst this
      simp [List.enumFrom]
    | succ m =>
      have := ih (k + 1) m x (by simpa using h)
      simp only [List.enumFrom, List.mem_cons]
      right
      have heq : k + (m + 1) = (k + 1) + m := by omega
      rw [heq]
      exact this

lemma get?_mem_enum {α : Type} (l : List α) (n : Nat) (x : α) (h : l.get? n = some x) :
    (n, x) ∈ l.enum := by
  have := get?_mem_enumFrom l 0 n x h
  simpa [List.enum] using this

lemma length_filter_ne_lt (a : Nat) :
    ∀ l : List Nat, a ∈ l → (l.filter (fun x => decide (¬ x = a))).length < l.length := by
  intro l
  induction l with
  | nil => intro h; simp at h
  | cons z zs ih =>
    intro h
    rw [List.filter_cons]
    by_cases hz : z = a
    · rw [if_neg (by simp [hz])]
      calc (zs.filter (fun x => decide (¬ x = a))).length
          ≤ zs.length := List.length_filter_le _ _
        _ < (z :: zs).length := by simp
    · rw [if_pos (by simp [hz])]
      have hmem : a ∈ zs := by
        rcases List.mem_cons.mp h with rfl | h'
        · exact absurd rfl hz
        · exact h'
      simpa using ih hmem

/-- The immutable part of an instance: everything but the attendee list. -/
def skelF (i : SInst) : String × Nat × Nat × String :=
  (i.instanceId, i.sessionId, i.slotId, i.roomId)

def sameSkeleton (st st' : St) : Prop :=
  ∀ idx, (st.instances.get? idx).map skelF = (st'.instances.get? idx).map skelF

/-- Invariant: at most one instance per (slot, room) pair. -/
abbrev distinctPairs (st : St) : Prop :=
  (st.instances.map (fun i => (i.slotId, i.roomId))).Nodup

/-- Invariant: every attendee listed on an instance holds a gene for that
instance's slot pointing at that instance's room. -/
abbrev consistent (st : St) : Prop :=
  ∀ p ∈ st.instances.enum, ∀ a ∈ p.2.attendees,
    ((geneAt st.genome a p.2.slotId).map (·.roomId)) = some p.2.roomId

lemma consistent_get? {st : St} (hc : consistent st) {j : Nat} {i : SInst} {a : Nat}
    (hj : st.instances.get? j = some i) (ha : a ∈ i.attendees) :
    ((geneAt st.genome a i.slotId).map (·.roomId)) = some i.roomId :=
  hc (j, i) (get?_mem_enum _ _ _ hj) a ha

lemma sameSkeleton_refl (st : St) : sameSkeleton st st := fun _ => rfl

lemma sameSkeleton_trans {st1 st2 st3 : St} (h1 : sameSkeleton st1 st2)
    (h2 : sameSkeleton st2 st3) : sameSkeleton st1 st3 :=
  fun idx => (h1 idx).trans (h2 idx)

lemma capOf_congr (roomsById : List (String × Room)) (slotsById : List (Nat × TimeSlot))
    (sessions : List Session) {i i' : SInst} (h : skelF i = skelF i') :
    capOf roomsById slotsById sessions i = capOf roomsById slotsById sessions i' := by
  unfold skelF at h
  obtain ⟨h1, h2, h3, h4⟩ : i.instanceId = i'.instanceId ∧ i.sessionId = i'.sessionId
      ∧ i.slotId = i'.slotId ∧ i.roomId = i'.roomId := by
    simpa [Prod.ext_iff] using h
  unfold capOf
  rw [h2, h3, h4]

lemma sameSkeleton_pairs {st st' : St} (h : sameSkeleton st st') :
    st.instances.map (fun i => (i.slotId, i.roomId))
      = st'.instances.map (fun i => (i.slotId, i.roomId)) := by
  apply List.ext_get?
  intro n
  rw [List.get?_map, List.get?_map]
  have := h n
  cases h1 : st.instances.get? n with
  | none =>
    rw [h1] at this
    cases h2 : st'.instances.get? n with
    | none => rfl
    | some y => rw [h2] at this; simp at this
  | some x =>
    rw [h1] at this
    cases h2 : st'.instances.get? n with
    | none => rw [h2] at this; simp at this
    | some y =>
      rw [h2] at this
      simp only [Option.map_some', Option.some.injEq] at this ⊢
      unfold skelF at this
      simp only [Prod.mk.injEq] at this
      simp [this.2.2.1, this.2.2.2]

lemma sameSkeleton_distinct {st st' : St} (h : sameSkeleton st st')
    (hd : distinctPairs st) : distinctPairs st' := by
  unfold distinctPairs at hd ⊢
  rwa [← sameSkeleton_pairs h]

lemma nodup_map_get?_inj {α β : Type} (f : α → β) {l : List α} {j1 j2 : Nat} {y1 y2 : α}
    (hnd : (l.map f).Nodup) (h1 : l.get? j1 = some y1) (h2 : l.get? j2 = some y2)
    (hf : f y1 = f y2) : j1 = j2 := by
  have hm1 : (l.map f).get? j1 = some (f y1) := by rw [List.get?_map, h1]; rfl
  have hm2 : (l.map f).get? j2 = some (f y2) := by rw [List.get?_map, h2]; rfl
  have hlt : j1 < (l.map f).length := by
    rw [List.length_map]
    exact List.get?_eq_some.mp h1 |>.fst
  exact List.get?_inj hlt hnd (by rw [hm1, hm2, hf])

/-! ### `updAtt` and `removeGene` characterization -/

lemma updAtt_genome (st : St) (idx : Nat) (f : List Nat → List Nat) :
    (updAtt st idx f).genome = st.genome := rfl

lemma updAtt_get?_eq (st : St) (idx : Nat) (f : List Nat → List Nat) :
    (updAtt st idx f).instances.get? idx
      = (st.instances.get? idx).map (fun i => { i with attendees := f i.attendees }) :=
  listModify_get?_eq _ _ _

lemma updAtt_get?_ne (st : St) (idx j : Nat) (f : List Nat → List Nat) (h : ¬ j = idx) :
    (updAtt st idx f).instances.get? j = st.instances.get? j :=
  listModify_get?_ne _ _ _ _ h

lemma updAtt_skel (st : St) (idx : Nat) (f : List Nat → List Nat) :
    sameSkeleton st (updAtt st idx f) := by
  intro j
  by_cases hj : j = idx
  · subst hj
    rw [updAtt_get?_eq]
    cases st.instances.get? j <;> rfl
  · rw [updAtt_get?_ne _ _ _ _ hj]

lemma removeGene_of_none {st : St} {a s : Nat} (h : geneAt st.genome a s = none) :
    removeGene st a s = st := by
  unfold removeGene
  rw [h]

lemma removeGene_genome (st : St) (a s : Nat) :
    (removeGene st a s).genome
      = match geneAt st.genome a s with
        | none => st.genome
        | some _ => gDelGene st.genome a s := by
  unfold removeGene
  cases geneAt st.genome a s with
  | none => rfl
  | some gene =>
    dsimp only
    cases (List.findIdx? (fun i => decide (i.slotId = s ∧ i.roomId = gene.roomId)) st.instances) with
    | none => rfl
    | some idx => rfl

lemma removeGene_geneAt_self (st : St) (a s : Nat) :
    geneAt (removeGene st a s).genome a s = none := by
  rw [removeGene_genome]
  cases h : geneAt st.genome a s with
  | none => exact h
  | some gene => exact geneAt_gDelGene_self _ _ _

lemma removeGene_geneAt_other (st : St) (a s a' s' : Nat) (h : ¬ a' = a ∨ ¬ s' = s) :
    geneAt (removeGene st a s).genome a' s' = geneAt st.genome a' s' := by
  rw [removeGene_genome]
  cases hg : geneAt st.genome a s with
  | none => rfl
  | some gene => exact geneAt_gDelGene_other _ _ _ _ _ h

lemma removeGene_instances (st : St) (a s : Nat) :
    (removeGene st a s).instances
      = match geneAt st.genome a s with
        | none => st.instances
        | some gene =>
          match st.instances.findIdx? (fun i => decide (i.slotId = s ∧ i.roomId = gene.roomId)) with
          | none => st.instances
          | some idx =>
            listModify (fun i => { i with attendees := i.attendees.filter (fun x => decide (¬ x = a)) })
              st.instances idx := by
  unfold removeGene
  cases geneAt st.genome a s with
  | none => rfl
  | some gene =>
    dsimp only
    cases (List.findIdx? (fun i => decide (i.slotId = s ∧ i.roomId = gene.roomId)) st.instances) with
    | none => rfl
    | some idx => rfl

lemma removeGene_skel (st : St) (a s : Nat) : sameSkeleton st (removeGene st a s) := by
  intro j
  show _ = ((removeGene st a s).instances.get? j).map skelF
  rw [removeGene_instances]
  cases geneAt st.genome a s with
  | none => rfl
  | some gene =>
    dsimp only
    cases List.findIdx? (fun i => decide (i.slotId = s ∧ i.roomId = gene.roomId)) st.instances with
    | none => rfl
    | some idx =>
      dsimp only
      by_cases hj : j = idx
      · subst hj
        rw [listModify_get?_eq]
        cases st.instances.get? j <;> rfl
      · rw [listModify_get?_ne _ _ _ _ hj]

lemma stExt {s1 s2 : St} (h1 : s1.genome = s2.genome) (h2 : s1.instances = s2.instances) :
    s1 = s2 := by
  cases s1; cases s2
  cases h1; cases h2
  rfl

/-- The well-formedness package the Repair Pass is entitled to assume. -/
def Good (st : St) : Prop := distinctPairs st ∧ consistent st

lemma removeGene_target {st : St} {j : Nat} {i : SInst} {a : Nat}
    (hd : distinctPairs st) (hc : consistent st)
    (hj : st.instances.get? j = some i) (ha : a ∈ i.attendees) :
    (removeGene st a i.slotId).genome = gDelGene st.genome a i.slotId
    ∧ (removeGene st a i.slotId).instances.get? j
        = some { i with attendees := i.attendees.filter (fun x => decide (¬ x = a)) }
    ∧ ∀ j', ¬ j' = j → (removeGene st a i.slotId).instances.get? j' = st.instances.get? j' := by
  have hcg := consistent_get? hc hj ha
  cases hg : geneAt st.genome a i.slotId with
  | none => rw [hg] at hcg; simp at hcg
  | some gene =>
    rw [hg] at hcg
    have hroom : gene.roomId = i.roomId := by
      simpa using hcg
    have hfind : st.instances.findIdx?
        (fun x => decide (x.slotId = i.slotId ∧ x.roomId = gene.roomId)) = some j := by
      apply findIdx?_eq_of_unique (fun x => (x.slotId, x.roomId)) _ _ _ i hd hj
      · simp [hroom]
      · intro y _ hy
        simp only [decide_eq_true_eq] at hy
        simp [hy.1, hy.2, hroom]
    have hins := removeGene_instances st a i.slotId
    rw [hg] at hins
    dsimp only at hins
    rw [hfind] at hins
    dsimp only at hins
    refine ⟨by rw [removeGene_genome, hg], ?_, ?_⟩
    · rw [hins, listModify_get?_eq, hj]
      rfl
    · intro j' hj'
      rw [hins, listModify_get?_ne _ _ _ _ hj']

lemma removeGene_consistent {st : St} (hd : distinctPairs st) (hc : consistent st)
    (a s : Nat) : consistent (removeGene st a s) := by
  cases hg : geneAt st.genome a s with
  | none => rw [removeGene_of_none hg]; exact hc
  | some gene =>
    have hgen : (removeGene st a s).genome = gDelGene st.genome a s := by
      rw [removeGene_genome, hg]
    have hins := removeGene_instances st a s
    rw [hg] at hins
    dsimp only at hins
    intro p hp b hb
    have hgp := mem_enum_get? _ _ hp
    rw [hgen]
    cases hidx : List.findIdx?
        (fun x => decide (x.slotId = s ∧ x.roomId = gene.roomId)) st.instances with
    | none =>
      rw [hidx] at hins
      dsimp only at hins
      rw [hins] at hgp
      -- nobody holding a gene at slot `s` can sit on an instance at slot `s`:
      -- `findIdx? = none` says no instance matches `gene`'s (slot, room) pair
      have hnotmatch := List.findIdx?_eq_none_iff.mp hidx
      by_cases hba : b = a
      · subst hba
        by_cases hslot : p.2.slotId = s
        · exfalso
          have hcg := consistent_get? hc hgp hb
          rw [hslot, hg] at hcg
          have hroom : gene.roomId = p.2.roomId := by simpa using hcg
          have := hnotmatch p.2 (List.get?_mem hgp)
          simp [hslot, hroom] at this
        · rw [geneAt_gDelGene_other _ _ _ _ _ (Or.inr hslot)]
          exact consistent_get? hc hgp hb
      · rw [geneAt_gDelGene_other _ _ _ _ _ (Or.inl hba)]
        exact consistent_get? hc hgp hb
    | some idx0 =>
      rw [hidx] at hins
      dsimp only at hins
      rw [hins] at hgp
      obtain ⟨i0, hi0, hp0⟩ := findIdx?_spec _ _ _ hidx
      simp only [decide_eq_true_eq] at hp0
      by_cases hji : p.1 = idx0
      · rw [hji, listModify_get?_eq, hi0] at hgp
        simp only [Option.map_some', Option.some.injEq] at hgp
        have hatt : b ∈ i0.attendees ∧ ¬ b = a := by
          have := hb
          rw [← hgp] at this
          simp only [List.mem_filter, decide_eq_true_eq] at this
          exact this
        rw [geneAt_gDelGene_other _ _ _ _ _ (Or.inl hatt.2)]
        have := consistent_get? hc hi0 hatt.1
        rw [← hgp]
        exact this
      · rw [listModify_get?_ne _ _ _ _ hji] at hgp
        by_cases hba : b = a
        · subst hba
          by_cases hslot : p.2.slotId = s
          · exfalso
            have hcg := consistent_get? hc hgp hb
            rw [hslot, hg] at hcg
            have hroom : gene.roomId = p.2.roomId := by simpa using hcg
            exact hji (nodup_map_get?_inj (fun x => (x.slotId, x.roomId)) hd hgp hi0
              (by simp [hslot, hp0.1, ← hroom, hp0.2]))
          · rw [geneAt_gDelGene_other _ _ _ _ _ (Or.inr hslot)]
            exact consistent_get? hc hgp hb
        · rw [geneAt_gDelGene_other _ _ _ _ _ (Or.inl hba)]
          exact consistent_get? hc hgp hb

lemma removeGene_good {st : St} (hG : Good st) (a s : Nat) : Good (removeGene st a s) :=
  ⟨sameSkeleton_distinct (removeGene_skel st a s) hG.1, removeGene_consistent hG.1 hG.2 a s⟩

/-! ### The seat operation shared by `fillSlot` and the tail of `addGene` -/

/-- Set the gene for the slot of the instance at `idx` and push the advisor
onto its attendee list. -/
def seatAt (st : St) (a idx : Nat) : St :=
  match st.instances.get? idx with
  | none => st
  | some inst =>
    let g1 := gSetGene st.genome a inst.slotId ⟨inst.sessionId, inst.slotId, inst.roomId⟩
    updAtt { st with genome := g1 } idx (fun l => l ++ [a])

lemma seatAt_of_none {st : St} {a idx : Nat} (h : st.instances.get? idx = none) :
    seatAt st a idx = st := by
  unfold seatAt
  rw [h]

lemma seatAt_of_some {st : St} {a idx : Nat} {inst : SInst}
    (h : st.instances.get? idx = some inst) :
    seatAt st a idx
      = updAtt { st with genome := gSetGene st.genome a inst.slotId ⟨inst.sessionId, inst.slotId, inst.roomId⟩ } idx (fun l => l ++ [a]) := by
  unfold seatAt
  rw [h]

lemma seatAt_skel (st : St) (a idx : Nat) : sameSkeleton st (seatAt st a idx) := by
  cases h : st.instances.get? idx with
  | none => rw [seatAt_of_none h]; exact sameSkeleton_refl st
  | some inst =>
    rw [seatAt_of_some h]
    intro j
    exact updAtt_skel { st with genome := gSetGene st.genome a inst.slotId ⟨inst.sessionId, inst.slotId, inst.roomId⟩ } idx _ j

lemma seatAt_genome {st : St} {a idx : Nat} {inst : SInst}
    (h : st.instances.get? idx = some inst) :
    (seatAt st a idx).genome
      = gSetGene st.genome a inst.slotId ⟨inst.sessionId, inst.slotId, inst.roomId⟩ := by
  rw [seatAt_of_some h]
  rfl

lemma seatAt_get?_eq {st : St} {a idx : Nat} {inst : SInst}
    (h : st.instances.get? idx = some inst) :
    (seatAt st a idx).instances.get? idx = some { inst with attendees := inst.attendees ++ [a] } := by
  rw [seatAt_of_some h]
  rw [updAtt_get?_eq]
  show (st.instances.get? idx).map _ = _
  rw [h]
  rfl

lemma seatAt_get?_ne {st : St} {a idx j : Nat} (hj : ¬ j = idx) :
    (seatAt st a idx).instances.get? j = st.instances.get? j := by
  cases h : st.instances.get? idx with
  | none => rw [seatAt_of_none h]
  | some inst =>
    rw [seatAt_of_some h]
    exact updAtt_get?_ne _ _ _ _ hj

lemma seatAt_consistent {st : St} (hc : consistent st) {a idx : Nat}
    (hg : ∀ inst, st.instances.get? idx = some inst → geneAt st.genome a inst.slotId = none) :
    consistent (seatAt st a idx) := by
  cases hins : st.instances.get? idx with
  | none => rw [seatAt_of_none hins]; exact hc
  | some inst =>
    have hgene := hg inst hins
    -- nobody already seated at `inst.slotId` can be `a`
    have F : ∀ j i', st.instances.get? j = some i' → i'.slotId = inst.slotId →
        ¬ a ∈ i'.attendees := by
      intro j i' hj hs hmem
      have := consistent_get? hc hj hmem
      rw [hs, hgene] at this
      simp at this
    intro p hp b hb
    have hgp := mem_enum_get? _ _ hp
    have hgenome : (seatAt st a idx).genome
        = gSetGene st.genome a inst.slotId ⟨inst.sessionId, inst.slotId, inst.roomId⟩ :=
      seatAt_genome hins
    rw [hgenome]
    by_cases hji : p.1 = idx
    · rw [hji, seatAt_get?_eq hins] at hgp
      simp only [Option.some.injEq] at hgp
      have hslot : p.2.slotId = inst.slotId := by rw [← hgp]
      have hroom : p.2.roomId = inst.roomId := by rw [← hgp]
      have hatt : b ∈ inst.attendees ++ [a] := by rw [← hgp] at hb; exact hb
      rcases List.mem_append.mp hatt with hbl | hbr
      · have hba : ¬ b = a := fun h => F idx inst hins rfl (h ▸ hbl)
        rw [hslot, geneAt_gSetGene_other _ _ _ _ _ _ (Or.inl hba)]
        have := consistent_get? hc hins hbl
        rw [this, hroom]
      · have hba : b = a := by simpa using hbr
        rw [hslot, hba, geneAt_gSetGene_self]
        simp [hroom]
    · rw [seatAt_get?_ne hji] at hgp
      by_cases hba : b = a
      · subst hba
        by_cases hslot : p.2.slotId = inst.slotId
        · exact absurd hb (F p.1 p.2 hgp hslot)
        · rw [geneAt_gSetGene_other _ _ _ _ _ _ (Or.inr hslot)]
          exact consistent_get? hc hgp hb
      · rw [geneAt_gSetGene_other _ _ _ _ _ _ (Or.inl hba)]
        exact consistent_get? hc hgp hb

lemma seatAt_good {st : St} (hG : Good st) {a idx : Nat}
    (hg : ∀ inst, st.instances.get? idx = some inst → geneAt st.genome a inst.slotId = none) :
    Good (seatAt st a idx) :=
  ⟨sameSkeleton_distinct (seatAt_skel st a idx) hG.1, seatAt_consistent hG.2 hg⟩

/-! ### `addGene` and `fillSlot` via `seatAt` -/

lemma addGene_of_none {st : St} {a idx : Nat} (h : st.instances.get? idx = none) :
    addGene st a idx = st := by
  unfold addGene
  rw [h]

lemma fillSlot_of_none {st : St} {a slot idx : Nat} (h : st.instances.get? idx = none) :
    fillSlot st a slot idx = st := by
  unfold fillSlot
  rw [h]

lemma addGene_eq_seatAt {st : St} {a idx : Nat} {inst : SInst}
    (hins : st.instances.get? idx = some inst) :
    addGene st a idx = seatAt (removeGene st a inst.slotId) a idx := by
  unfold addGene
  rw [hins]
  dsimp only
  have hskel := removeGene_skel st a inst.slotId idx
  rw [hins] at hskel
  cases hri : (removeGene st a inst.slotId).instances.get? idx with
  | none => rw [hri] at hskel; simp at hskel
  | some inst' =>
    rw [hri] at hskel
    simp only [Option.map_some', Option.some.injEq] at hskel
    unfold skelF at hskel
    simp only [Prod.mk.injEq] at hskel
    rw [seatAt_of_some hri]
    rw [hskel.2.1, hskel.2.2.1, hskel.2.2.2]

lemma fillSlot_eq_seatAt {st : St} {a slot idx : Nat} {inst : SInst}
    (hins : st.instances.get? idx = some inst) (hslot : inst.slotId = slot) :
    fillSlot st a slot idx = seatAt st a idx := by
  unfold fillSlot
  rw [hins, seatAt_of_some hins, ← hslot]

lemma addGene_good {st : St} (hG : Good st) (a idx : Nat) : Good (addGene st a idx) := by
  cases hins : st.instances.get? idx with
  | none => rw [addGene_of_none hins]; exact hG
  | some inst =>
    rw [addGene_eq_seatAt hins]
    refine seatAt_good (removeGene_good hG a inst.slotId) (fun inst' hi' => ?_)
    have hskel := removeGene_skel st a inst.slotId idx
    rw [hins, hi'] at hskel
    simp only [Option.map_some', Option.some.injEq] at hskel
    unfold skelF at hskel
    simp only [Prod.mk.injEq] at hskel
    rw [← hskel.2.2.1]
    exact removeGene_geneAt_self st a inst.slotId

lemma fillSlot_good {st : St} (hG : Good st) {a slot idx : Nat}
    (hg : geneAt st.genome a slot = none)
    (hslot : ∀ inst, st.instances.get? idx = some inst → inst.slotId = slot) :
    Good (fillSlot st a slot idx) := by
  cases hins : st.instances.get? idx with
  | none => rw [fillSlot_of_none hins]; exact hG
  | some inst =>
    rw [fillSlot_eq_seatAt hins (hslot inst hins)]
    refine seatAt_good hG (fun inst' hi' => ?_)
    rw [hins] at hi'
    cases hi'
    rw [hslot inst hins]
    exact hg

lemma addGene_skel {st : St} (a idx : Nat) : sameSkeleton st (addGene st a idx) := by
  cases hins : st.instances.get? idx with
  | none => rw [addGene_of_none hins]; exact sameSkeleton_refl st
  | some inst =>
    rw [addGene_eq_seatAt hins]
    exact sameSkeleton_trans (removeGene_skel st a inst.slotId)
      (seatAt_skel (removeGene st a inst.slotId) a idx)

lemma fillSlot_skel {st : St} (a slot idx : Nat) : sameSkeleton st (fillSlot st a slot idx) := by
  cases hins : st.instances.get? idx with
  | none => rw [fillSlot_of_none hins]; exact sameSkeleton_refl st
  | some inst =>
    unfold fillSlot
    rw [hins]
    dsimp only
    intro j
    exact updAtt_skel { st with genome := gSetGene st.genome a slot ⟨inst.sessionId, inst.slotId, inst.roomId⟩ } idx _ j

/-! ### Phase 4 rebalance loop: specification relation -/

lemma sameSkeleton_get?_some {st st' : St} (h : sameSkeleton st st') {j : Nat} {i : SInst}
    (hj : st.instances.get? j = some i) :
    ∃ i', st'.instances.get? j = some i' ∧ skelF i' = skelF i := by
  have hh := h j
  rw [hj] at hh
  cases h' : st'.instances.get? j with
  | none => rw [h'] at hh; simp at hh
  | some i' =>
    rw [h'] at hh
    simp only [Option.map_some', Option.some.injEq] at hh
    exact ⟨i', rfl, hh.symm⟩

/-- What one whole run of the rebalance loop at instance `idx` with budget `cap`
guarantees: well-formedness and skeleton are preserved, the target instance ends
at or below budget unless one of its attendees is a blocked presenter, and every
other instance either keeps its attendee list or ends at or below its own
effective capacity, never losing an attendee. -/
def RBrel (roomsById : List (String × Room)) (slotsById : List (Nat × TimeSlot))
    (sessions : List Session) (obligations : List (Nat × List Oblig))
    (idx : Nat) (cap : Int) (st st' : St) : Prop :=
  Good st' ∧ sameSkeleton st st'
  ∧ (∀ i', st'.instances.get? idx = some i' →
      (i'.attendees.length : Int) ≤ cap
      ∨ ∃ a ∈ i'.attendees, hasPresenterConflict obligations a i'.slotId = true)
  ∧ (∀ j i0 i', ¬ j = idx → st.instances.get? j = some i0 →
      st'.instances.get? j = some i' →
      (i'.attendees = i0.attendees
        ∨ (i'.attendees.length : Int) ≤ capOf roomsById slotsById sessions i')
      ∧ ∀ a ∈ i0.attendees, a ∈ i'.attendees)

lemma RBrel_self (roomsById : List (String × Room)) (slotsById : List (Nat × TimeSlot))
    (sessions : List Session) (obligations : List (Nat × List Oblig))
    (idx : Nat) (cap : Int) {st : St} (hG : Good st)
    (hidx : ∀ i', st.instances.get? idx = some i' →
      (i'.attendees.length : Int) ≤ cap
      ∨ ∃ a ∈ i'.attendees, hasPresenterConflict obligations a i'.slotId = true) :
    RBrel roomsById slotsById sessions obligations idx cap st st := by
  refine ⟨hG, sameSkeleton_refl st, hidx, ?_⟩
  intro j i0 i' _ h0 h'
  rw [h0] at h'
  cases h'
  exact ⟨Or.inl rfl, fun a ha => ha⟩

lemma RBrel_compose {roomsById : List (String × Room)} {slotsById : List (Nat × TimeSlot)}
    {sessions : List Session} {obligations : List (Nat × List Oblig)}
    {idx : Nat} {cap : Int} {st st2 st' : St}
    (hsk : sameSkeleton st st2)
    (hrel : ∀ j i0 i', ¬ j = idx → st.instances.get? j = some i0 →
      st2.instances.get? j = some i' →
      (i'.attendees = i0.attendees
        ∨ (i'.attendees.length : Int) ≤ capOf roomsById slotsById sessions i')
      ∧ ∀ a ∈ i0.attendees, a ∈ i'.attendees)
    (h2 : RBrel roomsById slotsById sessions obligations idx cap st2 st') :
    RBrel roomsById slotsById sessions obligations idx cap st st' := by
  obtain ⟨hG', hsk', hidx', hrel'⟩ := h2
  refine ⟨hG', sameSkeleton_trans hsk hsk', hidx', ?_⟩
  intro j i0 i' hj h0 h'
  obtain ⟨i2, h2j, hskf2⟩ := sameSkeleton_get?_some hsk h0
  obtain ⟨hd12, hm12⟩ := hrel j i0 i2 hj h0 h2j
  obtain ⟨hd2', hm2'⟩ := hrel' j i2 i' hj h2j h'
  refine ⟨?_, fun a ha => hm2' a (hm12 a ha)⟩
  rcases hd2' with hatt' | hcap'
  · rcases hd12 with hatt2 | hcap2
    · exact Or.inl (hatt'.trans hatt2)
    · refine Or.inr ?_
      obtain ⟨i'', h'', hskf''⟩ := sameSkeleton_get?_some hsk' h2j
      rw [h''] at h'
      cases h'
      rw [hatt', capOf_congr roomsById slotsById sessions hskf'']
      exact hcap2
  · exact Or.inr hcap'

lemma rebalanceLoop_spec (advisors : List Advisor) (sessions : List Session)
    (roomsById : List (String × Room)) (slotsById : List (Nat × TimeSlot))
    (obligations : List (Nat × List Oblig)) (idx : Nat) (cap : Int)
    (hcap0 : 0 ≤ cap) :
    ∀ (fuel : Nat) (st : St), Good st → lenAt st idx ≤ fuel →
      RBrel roomsById slotsById sessions obligations idx cap st
        (rebalanceLoop advisors sessions roomsById slotsById obligations idx cap fuel st) := by
  intro fuel
  induction fuel with
  | zero =>
    intro st hG hlen
    simp only [rebalanceLoop]
    refine RBrel_self _ _ _ _ _ _ hG (fun i' h => ?_)
    refine Or.inl ?_
    have : lenAt st idx = i'.attendees.length := by unfold lenAt; rw [h]
    have h0 : i'.attendees.length = 0 := by omega
    rw [h0]
    exact hcap0
  | succ fuel ih =>
    intro st hG hlen
    simp only [rebalanceLoop]
    cases hinst : st.instances.get? idx with
    | none =>
      dsimp only
      refine RBrel_self _ _ _ _ _ _ hG (fun i' h => ?_)
      rw [hinst] at h
      exact Option.noConfusion h
    | some inst =>
      dsimp only
      split
      · rename_i hle
        refine RBrel_self _ _ _ _ _ _ hG (fun i' h => ?_)
        rw [hinst] at h
        cases h
        exact Or.inl hle
      · rename_i hle
        split
        · rename_i hhead
          exfalso
          have hattnil : inst.attendees = [] :=
            (ssort_nil_iff _ _).mp (List.head?_eq_none_iff.mp hhead)
          apply hle
          rw [hattnil]
          simpa using hcap0
        · rename_i cand hhead
          have hcand : cand ∈ inst.attendees := ssort_mem _ _ _ (head?_mem _ _ hhead)
          split
          · rename_i hpc
            refine RBrel_self _ _ _ _ _ _ hG (fun i' h => ?_)
            rw [hinst] at h
            cases h
            exact Or.inr ⟨cand, hcand, hpc⟩
          · rename_i hpc
            obtain ⟨hgen1, hat1, hother1⟩ := removeGene_target hG.1 hG.2 hinst hcand
            have hG1 : Good (removeGene st cand inst.slotId) := removeGene_good hG cand inst.slotId
            have hskel1 : sameSkeleton st (removeGene st cand inst.slotId) :=
              removeGene_skel st cand inst.slotId
            have hgat1 : geneAt (removeGene st cand inst.slotId).genome cand inst.slotId = none :=
              removeGene_geneAt_self st cand inst.slotId
            have hlen1 : lenAt (removeGene st cand inst.slotId) idx ≤ fuel := by
              have h1len : lenAt (removeGene st cand inst.slotId) idx
                  = (inst.attendees.filter (fun x => decide (¬ x = cand))).length := by
                unfold lenAt; rw [hat1]
              have h0len : lenAt st idx = inst.attendees.length := by
                unfold lenAt; rw [hinst]
              have hflt := length_filter_ne_lt cand inst.attendees hcand
              omega
            have key : ∀ st2 : St, Good st2 →
                sameSkeleton (removeGene st cand inst.slotId) st2 →
                st2.instances.get? idx = (removeGene st cand inst.slotId).instances.get? idx →
                (∀ j i0 i', ¬ j = idx →
                  (removeGene st cand inst.slotId).instances.get? j = some i0 →
                  st2.instances.get? j = some i' →
                  (i'.attendees = i0.attendees
                    ∨ (i'.attendees.length : Int) ≤ capOf roomsById slotsById sessions i')
                  ∧ ∀ a ∈ i0.attendees, a ∈ i'.attendees) →
                RBrel roomsById slotsById sessions obligations idx cap st
                  (rebalanceLoop advisors sessions roomsById slotsById obligations idx cap fuel st2) := by
              intro st2 hG2 hsk2 hidx2 hrel2
              have hlen2 : lenAt st2 idx ≤ fuel := by
                have : lenAt st2 idx = lenAt (removeGene st cand inst.slotId) idx := by
                  unfold lenAt; rw [hidx2]
                omega
              refine RBrel_compose (sameSkeleton_trans hskel1 hsk2) ?_ (ih st2 hG2 hlen2)
              intro j i0 i' hj h0 h'
              have h1 : (removeGene st cand inst.slotId).instances.get? j = some i0 := by
                rw [hother1 j hj]; exact h0
              exact hrel2 j i0 i' hj h1 h'
            have keyAdd : ∀ (k : Nat) (kinst : SInst),
                (removeGene st cand inst.slotId).instances.get? k = some kinst →
                kinst.slotId = inst.slotId → ¬ kinst.sessionId = inst.sessionId →
                (kinst.attendees.length : Int) < capOf roomsById slotsById sessions kinst →
                RBrel roomsById slotsById sessions obligations idx cap st
                  (rebalanceLoop advisors sessions roomsById slotsById obligations idx cap fuel
                    (addGene (removeGene st cand inst.slotId) cand k)) := by
              intro k kinst hk hslotk hsessk hcapk
              have hkidx : ¬ k = idx := by
                intro hk0
                rw [hk0, hat1] at hk
                cases hk
                exact hsessk rfl
              have hseat : addGene (removeGene st cand inst.slotId) cand k
                  = seatAt (removeGene st cand inst.slotId) cand k := by
                rw [addGene_eq_seatAt hk,
                  removeGene_of_none (by rw [hslotk]; exact hgat1)]
              rw [hseat]
              refine key _ (seatAt_good hG1 (fun inst' hi' => ?_)) (seatAt_skel _ cand k)
                (seatAt_get?_ne (fun h => hkidx h.symm)) ?_
              · rw [hk] at hi'
                cases hi'
                rw [hslotk]
                exact hgat1
              · intro j i0 i' hj h0 h'
                by_cases hjk : j = k
                · subst hjk
                  rw [h0] at hk
                  cases hk
                  rw [seatAt_get?_eq h0] at h'
                  cases h'
                  refine ⟨Or.inr ?_, fun a ha => List.mem_append_left _ ha⟩
                  have hcapeq : capOf roomsById slotsById sessions
                      { kinst with attendees := kinst.attendees ++ [cand] }
                      = capOf roomsById slotsById sessions kinst := rfl
                  rw [hcapeq]
                  simp only [List.length_append, List.length_cons, List.length_nil]
                  push_cast
                  omega
                · rw [seatAt_get?_ne hjk, h0] at h'
                  cases h'
                  exact ⟨Or.inl rfl, fun a ha => ha⟩
            split
            · rename_i d halt
              have hmem := ssort_mem _ _ _ (head?_mem _ _ halt)
              rw [List.mem_filter] at hmem
              obtain ⟨hd1, hd2⟩ := hmem
              simp only [Bool.and_eq_true, decide_eq_true_eq] at hd2
              exact keyAdd d.1 d.2 (mem_enum_get? _ _ hd1) hd2.1.1.1 hd2.1.1.2 hd2.1.2
            · rename_i halt
              split
              · rename_i d hfb
                have hd1 := List.mem_of_find?_eq_some hfb
                have hd2 := List.find?_some hfb
                simp only [Bool.and_eq_true, decide_eq_true_eq] at hd2
                exact keyAdd d.1 d.2 (mem_enum_get? _ _ hd1) hd2.1.1 hd2.1.2 hd2.2
              · rename_i hfb
                refine key _ hG1 (sameSkeleton_refl _) rfl ?_
                intro j i0 i' _ h0 h'
                rw [h0] at h'
                cases h'
                exact ⟨Or.inl rfl, fun a ha => ha⟩

lemma sameSkeleton_symm {st st' : St} (h : sameSkeleton st st') : sameSkeleton st' st :=
  fun idx => (h idx).symm

lemma phase4_fold (advisors : List Advisor) (sessions : List Session)
    (roomsById : List (String × Room)) (slotsById : List (Nat × TimeSlot))
    (obligations : List (Nat × List Oblig))
    (hcapall : ∀ i : SInst, 0 ≤ capOf roomsById slotsById sessions i) (st : St) :
    ∀ (l : List (Nat × SInst)) (cur : St), Good cur → sameSkeleton st cur →
      (∀ p ∈ l, st.instances.get? p.1 = some p.2) →
      (∀ j i', cur.instances.get? j = some i' →
        ((i'.attendees.length : Int) ≤ capOf roomsById slotsById sessions i'
          ∨ ∃ a ∈ i'.attendees, hasPresenterConflict obligations a i'.slotId = true)
        ∨ ∃ p ∈ l, p.1 = j) →
      ∀ j i', (l.foldl (fun cur p =>
          rebalanceLoop advisors sessions roomsById slotsById obligations p.1
            (capOf roomsById slotsById sessions p.2) (lenAt cur p.1) cur) cur).instances.get? j
          = some i' →
        (i'.attendees.length : Int) ≤ capOf roomsById slotsById sessions i'
        ∨ ∃ a ∈ i'.attendees, hasPresenterConflict obligations a i'.slotId = true := by
  intro l
  induction l with
  | nil =>
    intro cur _ _ _ hinv j i' hj
    rcases hinv j i' hj with h | ⟨p, hp, _⟩
    · exact h
    · exact absurd hp (List.not_mem_nil p)
  | cons p rest ih =>
    intro cur hG hsk hside hinv j i' hj
    obtain ⟨hG', hsk', hidx', hrel'⟩ := rebalanceLoop_spec advisors sessions roomsById slotsById
      obligations p.1 (capOf roomsById slotsById sessions p.2) (hcapall p.2)
      (lenAt cur p.1) cur hG (le_refl _)
    apply ih _ hG' (sameSkeleton_trans hsk hsk')
      (fun q hq => hside q (List.mem_cons_of_mem p hq)) ?_ j i' hj
    intro j2 i2 hj2
    by_cases hjp : j2 = p.1
    · subst hjp
      left
      rcases hidx' i2 hj2 with hlen | hconf
      · left
        have hst := hside p (List.mem_cons_self p rest)
        obtain ⟨i3, hi3, hskf3⟩ := sameSkeleton_get?_some (sameSkeleton_trans hsk hsk') hst
        have hii : i3 = i2 := by rw [hi3] at hj2; exact Option.some.inj hj2
        subst hii
        rw [capOf_congr roomsById slotsById sessions hskf3]
        exact hlen
      · right; exact hconf
    · obtain ⟨i0, hi0, hskf0⟩ := sameSkeleton_get?_some (sameSkeleton_symm hsk') hj2
      rcases hinv j2 i0 hi0 with hP | ⟨q, hq, hq1⟩
      · left
        obtain ⟨hd12, hm12⟩ := hrel' j2 i0 i2 hjp hi0 hj2
        rcases hP with hPl | hPr
        · rcases hd12 with hatt | hcap
          · left
            rw [hatt, ← capOf_congr roomsById slotsById sessions hskf0]
            exact hPl
          · left; exact hcap
        · right
          obtain ⟨a, ha, hconf⟩ := hPr
          refine ⟨a, hm12 a ha, ?_⟩
          unfold skelF at hskf0
          simp only [Prod.mk.injEq] at hskf0
          rw [← hskf0.2.2.1]
          exact hconf
      · rcases List.mem_cons.mp hq with hq0 | hq0
        · exfalso; rw [hq0] at hq1; exact hjp hq1.symm
        · exact Or.inr ⟨q, hq0, hq1⟩

lemma phase4_spec (advisors : List Advisor) (sessions : List Session)
    (roomsById : List (String × Room)) (slotsById : List (Nat × TimeSlot))
    (obligations : List (Nat × List Oblig))
    (hcapall : ∀ i : SInst, 0 ≤ capOf roomsById slotsById sessions i)
    {st : St} (hG : Good st) :
    ∀ j i', (phase4 advisors sessions roomsById slotsById obligations st).instances.get? j
        = some i' →
      (i'.attendees.length : Int) ≤ capOf roomsById slotsById sessions i'
      ∨ ∃ a ∈ i'.attendees, hasPresenterConflict obligations a i'.slotId = true := by
  unfold phase4
  refine phase4_fold advisors sessions roomsById slotsById obligations hcapall st _ st hG
    (sameSkeleton_refl st) (fun p hp => mem_enum_get? _ _ ((List.mem_filter.mp hp).1)) ?_
  intro j i' hj
  by_cases hov : capOf roomsById slotsById sessions i' < (i'.attendees.length : Int)
  · refine Or.inr ⟨(j, i'), List.mem_filter.mpr ⟨get?_mem_enum _ _ _ hj, ?_⟩, rfl⟩
    simpa using hov
  · exact Or.inl (Or.inl (not_lt.mp hov))

/-! ### Phases 0-3 preserve well-formedness -/

lemma foldl_pres {α β : Type} (P : β → Prop) (f : β → α → β) :
    ∀ (l : List α) (b : β), P b → (∀ b x, x ∈ l → P b → P (f b x)) → P (l.foldl f b) := by
  intro l
  induction l with
  | nil => intro b hb _; exact hb
  | cons x xs ih =>
    intro b hb h
    exact ih (f b x) (h b x (List.mem_cons_self x xs) hb)
      (fun b' y hy hb' => h b' y (List.mem_cons_of_mem x hy) hb')

lemma phase1Step_good (roomsById : List (String × Room)) (slotsById : List (Nat × TimeSlot))
    (sessions : List Session) (obligations : List (Nat × List Oblig))
    (adv : Advisor) (ms : Session) {st : St} (hG : Good st) :
    Good (phase1Step roomsById slotsById sessions obligations adv ms st) := by
  unfold phase1Step
  split
  · exact hG
  · dsimp only
    split
    · exact addGene_good hG _ _
    · split
      · exact addGene_good hG _ _
      · split
        · exact hG
        · split
          · exact addGene_good hG _ _
          · exact hG

lemma phase1_good (advisors : List Advisor) (sessions : List Session)
    (roomsById : List (String × Room)) (slotsById : List (Nat × TimeSlot))
    (obligations : List (Nat × List Oblig)) {st : St} (hG : Good st) :
    Good (phase1 advisors sessions roomsById slotsById obligations st) := by
  unfold phase1
  refine foldl_pres Good _ advisors st hG (fun st' adv _ hG' => ?_)
  refine foldl_pres Good _ (mandatoryOf sessions) st' hG' (fun st'' ms _ hG'' => ?_)
  exact phase1Step_good roomsById slotsById sessions obligations adv ms hG''

lemma phase2Step_good (roomsById : List (String × Room)) (slotsById : List (Nat × TimeSlot))
    (sessions : List Session) (obligations : List (Nat × List Oblig))
    (adv : Advisor) (slot : Nat) {st : St} (hG : Good st) :
    Good (phase2Step roomsById slotsById sessions obligations adv slot st) := by
  unfold phase2Step
  split
  · exact hG
  · split
    · exact hG
    · rename_i hg9
      have hgnone : geneAt st.genome adv.id slot = none := by
        cases h : geneAt st.genome adv.id slot with
        | none => rfl
        | some g => exact absurd (by rw [h]; rfl) hg9
      have hfill : ∀ p : Nat × SInst,
          p ∈ (st.instances.enum).filter (fun q => decide (q.2.slotId = slot)) →
          Good (fillSlot st adv.id slot p.1) := by
        intro p hp
        rw [List.mem_filter] at hp
        obtain ⟨hp1, hp2⟩ := hp
        simp only [decide_eq_true_eq] at hp2
        refine fillSlot_good hG hgnone (fun inst hi => ?_)
        rw [mem_enum_get? _ _ hp1] at hi
        cases hi
        exact hp2
      dsimp only
      split
      · rename_i pref hpref
        exact hfill pref (List.mem_filter.mp (List.mem_filter.mp
          (List.mem_of_find?_eq_some hpref)).1).1
      · split
        · rename_i first hfirst
          exact hfill first (List.mem_filter.mp (List.mem_filter.mp
            (head?_mem _ _ hfirst)).1).1
        · split
          · rename_i best hbest
            exact hfill best (List.mem_filter.mp
              (ssort_mem _ _ _ (head?_mem _ _ hbest))).1
          · exact hG

lemma phase2_good (advisors : List Advisor) (sessions : List Session)
    (roomsById : List (String × Room)) (slotsById : List (Nat × TimeSlot))
    (obligations : List (Nat × List Oblig)) {st : St} (hG : Good st) :
    Good (phase2 advisors sessions roomsById slotsById obligations st) := by
  unfold phase2
  refine foldl_pres Good _ advisors st hG (fun st' adv _ hG' => ?_)
  refine foldl_pres Good _ (sessionSlotsOfMap slotsById) st' hG' (fun st'' slot _ hG'' => ?_)
  exact phase2Step_good roomsById slotsById sessions obligations adv slot hG''

lemma phase3Remove_good (adv : Advisor) (entries : List (Nat × Gene))
    {acc : St × List (Nat × Nat)} (hG : Good acc.1) : Good (phase3Remove adv entries acc).1 := by
  unfold phase3Remove
  refine foldl_pres (fun a => Good a.1) _ entries acc hG (fun b e _ hb => ?_)
  split
  · exact removeGene_good hb _ _
  · exact hb

lemma phase3RefillStep_good (roomsById : List (String × Room)) (slotsById : List (Nat × TimeSlot))
    (sessions : List Session) (obligations : List (Nat × List Oblig)) (adv : Advisor)
    {acc : St × List (Nat × Nat)} (slot : Nat) (hG : Good acc.1) :
    Good (phase3RefillStep roomsById slotsById sessions obligations adv acc slot).1 := by
  unfold phase3RefillStep
  dsimp only
  repeat' split
  all_goals first
    | exact hG
    | exact addGene_good hG _ _

lemma phase3_good (advisors : List Advisor) (sessions : List Session)
    (roomsById : List (String × Room)) (slotsById : List (Nat × TimeSlot))
    (obligations : List (Nat × List Oblig)) {st : St} (hG : Good st) :
    Good (phase3 advisors sessions roomsById slotsById obligations st) := by
  unfold phase3
  refine foldl_pres Good _ advisors st hG (fun st' adv _ hG' => ?_)
  dsimp only
  refine foldl_pres (fun a : St × List (Nat × Nat) => Good a.1) _ (sessionSlotsOfMap slotsById)
    _ (phase3Remove_good adv _ hG') (fun b slot _ hb => ?_)
  exact phase3RefillStep_good roomsById slotsById sessions obligations adv slot hb

/-- **C2 (amended).** On a well-formed Individual — nonnegative nominal room
capacities, at most one instance per (slot, room), genome/attendee-list
consistency, presenter obligations already enforced — the Repair Pass leaves
every session instance at or below its effective strict capacity unless one of
its attendees holds a presenter obligation for the instance's time slot (Phase 4
breaks off rebalancing as soon as the eviction candidate is a presenter there,
so such instances may stay overfull). -/
theorem post_repair_capacity_unless_presenter
    (advisors : List Advisor) (sessions : List Session) (masterOptions : List SInst)
    (roomsById : List (String × Room)) (slotsById : List (Nat × TimeSlot))
    (obligations : List (Nat × List Oblig)) (st : St)
    (hrooms : ∀ p ∈ roomsById, 0 ≤ p.2.capacity)
    (hd : distinctPairs st) (hc : consistent st)
    (hob : obligationsEnforced masterOptions obligations st) :
    ∀ j i, (refineScheduleWithBulldozer advisors sessions masterOptions roomsById slotsById
        obligations st).instances.get? j = some i →
      (i.attendees.length : Int) ≤ capOf roomsById slotsById sessions i
      ∨ ∃ a ∈ i.attendees, hasPresenterConflict obligations a i.slotId = true := by
  have hcapall : ∀ i : SInst, 0 ≤ capOf roomsById slotsById sessions i := fun i =>
    getStrictCapacity_nonneg i.roomId i.sessionId i.slotId roomsById slotsById sessions hrooms
  unfold refineScheduleWithBulldozer
  rw [enforcePresenterObligations_noop masterOptions obligations st hob]
  exact phase4_spec advisors sessions roomsById slotsById obligations hcapall
    (phase3_good advisors sessions roomsById slotsById obligations
      (phase2_good advisors sessions roomsById slotsById obligations
        (phase1_good advisors sessions roomsById slotsById obligations ⟨hd, hc⟩)))

def w2advisors : List Advisor := [⟨1, "Alice", [1]⟩, ⟨2, "Bob", []⟩]

def w2sessions : List Session := [⟨1, "X", "Bob", SessionType.ELECTIVE, 1, none⟩]

def w2rooms : List (String × Room) := roomsByIdOf [⟨"a", "A", 1⟩]

def w2slots : List (Nat × TimeSlot) := slotsByIdOf [⟨2, 1, "08", SlotType.SESSION⟩]

def w2master : List SInst := [⟨"i1", 1, 2, "a", []⟩]

def w2ob : List (Nat × List Oblig) := buildPresenterObligations w2sessions w2advisors w2master

def w2st : St := ⟨[(1, [(2, ⟨1, 2, "a"⟩)]), (2, [(2, ⟨1, 2, "a"⟩)])], [⟨"i1", 1, 2, "a", [1, 2]⟩]⟩

def w2inst : SInst := ⟨"i1", 1, 2, "a", [1, 2]⟩

theorem post_repair_capacity_unless_presenter_witness :
    (w2inst.attendees.length : Int) ≤ capOf w2rooms w2slots w2sessions w2inst
    ∨ ∃ a ∈ w2inst.attendees, hasPresenterConflict w2ob a w2inst.slotId = true :=
  post_repair_capacity_unless_presenter w2advisors w2sessions w2master w2rooms w2slots w2ob w2st
    (by decide) (by decide) (by decide) (by decide) 0 w2inst (by decide)

/-! ## Master Schedule Generator (`generateSmartMasterOptions`) -/

/-- `Partial<ScheduledInstance>` as loaded from Excel: every field may be absent. -/
structure FixedInst where
  sessionId : Option Nat
  roomId : Option String
  slotId : Option Nat
  deriving DecidableEq, Repr

/-- The JS truthiness guard `fi.sessionId && fi.roomId && fi.slotId`
(a numeric field is falsy when `0`, a string field when empty). -/
def fixedLoaded (fi : FixedInst) : Bool :=
  (match fi.sessionId with | some n => decide (¬ n = 0) | none => false)
  && (match fi.roomId with | some r => decide (¬ r = "") | none => false)
  && (match fi.slotId with | some n => decide (¬ n = 0) | none => false)

/-- `usedSlots.get(slotId)?.add(roomId)` — a silent no-op when the slot key
was never initialised. -/
def markUsed (used : List (Nat × List String)) (slotId : Nat) (roomId : String) :
    List (Nat × List String) :=
  match jsGet slotId used with
  | none => used
  | some s => jsSet slotId (if roomId ∈ s then s else s ++ [roomId]) used

/-- `usedSlots.get(slotId)?.has(roomId)`. -/
def isUsed (used : List (Nat × List String)) (slotId : Nat) (roomId : String) : Bool :=
  match jsGet slotId used with
  | none => false
  | some s => decide (roomId ∈ s)

/-- The preference-demand map: each advisor adds `max(1, #prefs - idx)` for
the preference at position `idx`. -/
def preferenceDemandOf (advisors : List Advisor) : List (Nat × Nat) :=
  advisors.foldl (fun pd adv =>
    adv.preferences.enum.foldl (fun pd q =>
      jsSet q.2 ((jsGet q.2 pd).getD 0 + Nat.max 1 (adv.preferences.length - q.1)) pd) pd) []

/-- The generator's mutable trio: the options array, the instance counter and
the used-(slot, room) registry. -/
structure GenState where
  options : List SInst
  counter : Nat
  used : List (Nat × List String)
  deriving Repr

/-- `masterOptions.push({instanceId: inst-++counter, ...})`. -/
def pushInst (g : GenState) (sessionId slotId : Nat) (roomId : String) : GenState :=
  ⟨g.options ++ [⟨"inst-" ++ toString (g.counter + 1), sessionId, slotId, roomId, []⟩],
   g.counter + 1, g.used⟩

def gmarkUsed (g : GenState) (slotId : Nat) (roomId : String) : GenState :=
  ⟨g.options, g.counter, markUsed g.used slotId roomId⟩

/-- Step 1: load the fixed (Excel) placements. -/
def loadFixedStep (g : GenState) (fi : FixedInst) : GenState :=
  if fixedLoaded fi then
    match fi.sessionId, fi.roomId, fi.slotId with
    | some sid, some rid, some slid => gmarkUsed (pushInst g sid slid rid) slid rid
    | _, _, _ => g
  else g

/-- Step 1.5: force every PLENARY session into room molenhoek at slot 2
unless an option with its (session, slot 2) pair already exists. -/
def forcePlenaryStep (g : GenState) (sess : Session) : GenState :=
  match g.options.find? (fun m => decide (m.sessionId = sess.id ∧ m.slotId = 2)) with
  | some _ => g
  | none => gmarkUsed (pushInst g sess.id 2 "molenhoek") 2 "molenhoek"

/-- Step 2, inner loop body over the sorted room list. -/
def placeMandatoryRoom (sessId : Nat) (roomsById : List (String × Room))
    (slotsById : List (Nat × TimeSlot)) (sessions : List Session) (slotId : Nat)
    (acc : GenState × Int) (room : Room) : GenState × Int :=
  if acc.2 ≤ 0 then acc
  else if !isUsed acc.1.used slotId room.id
      && decide (0 < getStrictCapacity room.id sessId slotId roomsById slotsById sessions) then
    (gmarkUsed (pushInst acc.1 sessId slotId room.id) slotId room.id, acc.2 - 1)
  else acc

/-- Step 2: place each MANDATORY session into day-1 session slots, largest
non-molenhoek rooms first, until `repeats` copies exist. -/
def placeMandatorySession (rooms : List Room) (roomsById : List (String × Room))
    (slotsById : List (Nat × TimeSlot)) (sessions : List Session) (sessionSlots : List Nat)
    (g : GenState) (sess : Session) : GenState :=
  let needed : Int := (sess.repeats : Int)
    - ((g.options.filter (fun m => decide (m.sessionId = sess.id))).length : Int)
  if 0 < needed then
    let possibleSlots := sessionSlots.filter (fun sid =>
      decide (((jsGet sid slotsById).map (·.day)) = some 1))
    let largeRooms := (ssort (fun a b => decide (b.capacity ≤ a.capacity)) rooms).filter
      (fun r => decide (¬ r.id = "molenhoek"))
    (possibleSlots.foldl (fun acc slotId =>
        if acc.2 ≤ 0 then acc
        else largeRooms.foldl (placeMandatoryRoom sess.id roomsById slotsById sessions slotId) acc)
      (g, needed)).1
  else g

/-- Step 3's demand/placement filter.  `Math.ceil(demandTarget * 1.1)` is
modelled by the exact rational ceiling `(11 * t + 9) / 10`; the JS double
product can land just above an integer (e.g. `10 * 1.1`) and then ceil one
higher — that slack only influences which electives step 3 places, and no
theorem below depends on it. -/
def electiveCandidateOk (slotsById : List (Nat × TimeSlot)) (pd : List (Nat × Nat))
    (placements : List (Nat × Nat)) (slotId : Nat) (sess : Session) : Bool :=
  let placedCount := (jsGet sess.id placements).getD 0
  let demandTarget := Nat.max sess.repeats (((jsGet sess.id pd).getD 0 + 24) / 25)
  if (demandTarget * 11 + 9) / 10 ≤ placedCount then false
  else
    match sess.constraints, jsGet slotId slotsById with
    | some c, some sData =>
      if decide (0 < c.allowedDays.length) && !(c.allowedDays.contains sData.day) then false
      else if decide (c.timeOfDay = "morning")
          && !(sData.label.startsWith "08" || sData.label.startsWith "09"
            || sData.label.startsWith "10" || sData.label.startsWith "11") then false
      else if decide (c.timeOfDay = "afternoon")
          && (sData.label.startsWith "08" || sData.label.startsWith "09"
            || sData.label.startsWith "10") then false
      else true
    | _, _ => true

/-- Step 3's ranking score `demand / max(1, placed + 1)` (exact rationals in
place of JS doubles). -/
def electiveScore (pd placements : List (Nat × Nat)) (s : Session) : ℚ :=
  (((jsGet s.id pd).getD 0 : Nat) : ℚ) / ((Nat.max 1 ((jsGet s.id placements).getD 0 + 1) : Nat) : ℚ)

/-- Step 3, per available room: seat the best-scoring admissible elective. -/
def placeElectiveRoom (electives : List Session) (slotsById : List (Nat × TimeSlot))
    (pd : List (Nat × Nat)) (slotId : Nat)
    (acc : GenState × List (Nat × Nat)) (room : Room) : GenState × List (Nat × Nat) :=
  let candidates := ssort
    (fun a b => decide (electiveScore pd acc.2 b ≤ electiveScore pd acc.2 a))
    (electives.filter (electiveCandidateOk slotsById pd acc.2 slotId))
  match candidates.head? with
  | none => acc
  | some best =>
    (gmarkUsed (pushInst acc.1 best.id slotId room.id) slotId room.id,
     jsSet best.id ((jsGet best.id acc.2).getD 0 + 1) acc.2)

/-- Step 3, per slot: fill every still-free non-molenhoek room, largest first. -/
def placeElectiveSlot (rooms : List Room) (electives : List Session)
    (slotsById : List (Nat × TimeSlot)) (pd : List (Nat × Nat))
    (acc : GenState × List (Nat × Nat)) (slotId : Nat) : GenState × List (Nat × Nat) :=
  let roomsInSlot := ssort (fun a b => decide (b.capacity ≤ a.capacity))
    (rooms.filter (fun r => decide (¬ r.id = "molenhoek")))
  let availableRooms := roomsInSlot.filter (fun r => !isUsed acc.1.used slotId r.id)
  availableRooms.foldl (placeElectiveRoom electives slotsById pd slotId) acc

def generateSmartMasterOptions (sessions : List Session) (rooms : List Room)
    (timeSlots : List TimeSlot) (fixedInstances : List FixedInst)
    (roomsById : List (String × Room)) (slotsById : List (Nat × TimeSlot))
    (advisors : List Advisor) : List SInst :=
  let sessionSlots := (timeSlots.filter (fun ts => decide (ts.type = SlotType.SESSION))).map (·.id)
  let pd := preferenceDemandOf advisors
  let used0 := sessionSlots.foldl (fun u sid => jsSet sid ([] : List String) u) []
  let g1 := fixedInstances.foldl loadFixedStep ⟨[], 0, used0⟩
  let g15 := (sessions.filter (fun s => decide (s.type = SessionType.PLENARY))).foldl
    forcePlenaryStep g1
  let g2 := (sessions.filter (fun s => decide (s.type = SessionType.MANDATORY))).foldl
    (placeMandatorySession rooms roomsById slotsById sessions sessionSlots) g15
  let electives := sessions.filter (fun s => decide (s.type = SessionType.ELECTIVE))
  let sortedSlots := ssort (fun a b => decide (a ≤ b)) sessionSlots
  let g3 := sortedSlots.foldl
    (fun acc slotId => placeElectiveSlot rooms electives slotsById pd acc slotId) (g2, [])
  g3.1.options

/-! ### C10 support: the generator only ever appends options -/

lemma loadFixedStep_cases (g : GenState) (fi : FixedInst) :
    (loadFixedStep g fi).options = g.options
    ∨ ∃ sid rid slid, fi.sessionId = some sid ∧ fi.roomId = some rid ∧ fi.slotId = some slid
        ∧ fixedLoaded fi = true
        ∧ (loadFixedStep g fi).options
            = g.options ++ [⟨"inst-" ++ toString (g.counter + 1), sid, slid, rid, []⟩] := by
  unfold loadFixedStep
  split
  · rename_i hl
    cases hsid : fi.sessionId with
    | none => exact Or.inl rfl
    | some sid =>
      cases hrid : fi.roomId with
      | none => exact Or.inl rfl
      | some rid =>
        cases hslid : fi.slotId with
        | none => exact Or.inl rfl
        | some slid => exact Or.inr ⟨sid, rid, slid, rfl, rfl, rfl, hl, rfl⟩
  · exact Or.inl rfl

lemma step1_no_target (sessId : Nat) :
    ∀ (l : List FixedInst) (g : GenState),
      (∀ m ∈ g.options, ¬ (m.sessionId = sessId ∧ m.slotId = 2)) →
      (∀ fi ∈ l, fixedLoaded fi = true → ¬ (fi.sessionId = some sessId ∧ fi.slotId = some 2)) →
      ∀ m ∈ (l.foldl loadFixedStep g).options, ¬ (m.sessionId = sessId ∧ m.slotId = 2) := by
  intro l
  induction l with
  | nil => intro g hg _; exact hg
  | cons fi rest ih =>
    intro g hg hl
    refine ih (loadFixedStep g fi) ?_ (fun fi' h' => hl fi' (List.mem_cons_of_mem fi h'))
    intro m hm
    rcases loadFixedStep_cases g fi with heq | ⟨sid, rid, slid, hsid, hrid, hslid, hload, heq⟩
    · rw [heq] at hm
      exact hg m hm
    · rw [heq] at hm
      rcases List.mem_append.mp hm with hold | hnew
      · exact hg m hold
      · have hm' : m = ⟨"inst-" ++ toString (g.counter + 1), sid, slid, rid, []⟩ := by
          simpa using hnew
        intro hcon
        refine hl fi (List.mem_cons_self fi rest) hload ⟨?_, ?_⟩
        · rw [hsid, hm'] at *
          exact congrArg some (by rw [← hcon.1])
        · rw [hslid]
          rw [hm'] at hcon
          exact congrArg some (by rw [← hcon.2])

lemma forcePlenaryStep_mono {g : GenState} {i : SInst} (sess : Session)
    (hi : i ∈ g.options) : i ∈ (forcePlenaryStep g sess).options := by
  unfold forcePlenaryStep
  split
  · exact hi
  · exact List.mem_append_left _ hi

lemma forcePlenary_reaches (sess : Session) :
    ∀ (l : List Session) (g : GenState), sess ∈ l →
      ((∃ i ∈ g.options, i.sessionId = sess.id ∧ i.roomId = "molenhoek" ∧ i.slotId = 2)
        ∨ ∀ m ∈ g.options, ¬ (m.sessionId = sess.id ∧ m.slotId = 2)) →
      ∃ i ∈ (l.foldl forcePlenaryStep g).options,
        i.sessionId = sess.id ∧ i.roomId = "molenhoek" ∧ i.slotId = 2 := by
  intro l
  induction l with
  | nil => intro g hmem; exact absurd hmem (List.not_mem_nil sess)
  | cons s' rest ih =>
    intro g hmem hQ
    rcases hQ with ⟨i, hi, ht⟩ | hno
    · -- the witness is already present and survives every later append
      by_cases hmem' : sess ∈ rest
      · exact ih (forcePlenaryStep g s') hmem' (Or.inl ⟨i, forcePlenaryStep_mono s' hi, ht⟩)
      · have hs' : s' = sess := by
          rcases List.mem_cons.mp hmem with h | h
          · exact h.symm
          · exact absurd h hmem'
        subst hs'
        exact
          (foldl_pres (fun g' => ∃ i ∈ GenState.options g',
              i.sessionId = s'.id ∧ i.roomId = "molenhoek" ∧ i.slotId = 2) _ rest
            (forcePlenaryStep g s')
            ⟨i, forcePlenaryStep_mono s' hi, ht⟩
            (fun g' s'' _ ⟨i', hi', ht'⟩ => ⟨i', forcePlenaryStep_mono s'' hi', ht'⟩))
    · rcases List.mem_cons.mp hmem with hs' | hmem'
      · -- our session is processed right now: nothing matches, so it is inserted
        subst hs'
        have hfind : g.options.find? (fun m => decide (m.sessionId = sess.id ∧ m.slotId = 2))
            = none := by
          rw [List.find?_eq_none]
          intro m hm
          simpa using hno m hm
        have hstep : (forcePlenaryStep g sess).options
            = g.options ++ [⟨"inst-" ++ toString (g.counter + 1), sess.id, 2, "molenhoek", []⟩] := by
          unfold forcePlenaryStep
          rw [hfind]
          rfl
        refine foldl_pres (fun g' => ∃ i ∈ GenState.options g',
            i.sessionId = sess.id ∧ i.roomId = "molenhoek" ∧ i.slotId = 2) _ rest
          (forcePlenaryStep g sess) ⟨⟨"inst-" ++ toString (g.counter + 1), sess.id, 2, "molenhoek", []⟩, ?_, rfl, rfl, rfl⟩
          (fun g' s'' _ h => ?_)
        · rw [hstep]
          exact List.mem_append_right _ (List.mem_cons_self _ _)
        · obtain ⟨i', hi', ht'⟩ := h
          exact ⟨i', forcePlenaryStep_mono s'' hi', ht'⟩
      · -- a different list entry: the invariant survives its processing
        refine ih (forcePlenaryStep g s') hmem' ?_
        cases hfind : g.options.find? (fun m => decide (m.sessionId = s'.id ∧ m.slotId = 2)) with
        | some m0 =>
          have hstep : forcePlenaryStep g s' = g := by
            unfold forcePlenaryStep
            rw [hfind]
          rw [hstep]
          exact Or.inr hno
        | none =>
          have hstep : (forcePlenaryStep g s').options
              = g.options ++ [⟨"inst-" ++ toString (g.counter + 1), s'.id, 2, "molenhoek", []⟩] := by
            unfold forcePlenaryStep
            rw [hfind]
            rfl
          by_cases hid : s'.id = sess.id
          · refine Or.inl ⟨⟨"inst-" ++ toString (g.counter + 1), s'.id, 2, "molenhoek", []⟩, ?_, hid, rfl, rfl⟩
            rw [hstep]
            exact List.mem_append_right _ (List.mem_cons_self _ _)
          · refine Or.inr (fun m hm => ?_)
            rw [hstep] at hm
            rcases List.mem_append.mp hm with hold | hnew
            · exact hno m hold
            · have hm' : m = ⟨"inst-" ++ toString (g.counter + 1), s'.id, 2, "molenhoek", []⟩ := by
                simpa using hnew
              rw [hm']
              intro hcon
              exact hid hcon.1

lemma placeMandatoryRoom_mono {i : SInst} (sessId : Nat) (roomsById : List (String × Room))
    (slotsById : List (Nat × TimeSlot)) (sessions : List Session) (slotId : Nat)
    (acc : GenState × Int) (room : Room) (hi : i ∈ acc.1.options) :
    i ∈ (placeMandatoryRoom sessId roomsById slotsById sessions slotId acc room).1.options := by
  unfold placeMandatoryRoom
  split
  · exact hi
  · split
    · exact List.mem_append_left _ hi
    · exact hi

lemma placeMandatorySession_mono {i : SInst} (rooms : List Room)
    (roomsById : List (String × Room)) (slotsById : List (Nat × TimeSlot))
    (sessions : List Session) (sessionSlots : List Nat) (g : GenState) (sess : Session)
    (hi : i ∈ g.options) :
    i ∈ (placeMandatorySession rooms roomsById slotsById sessions sessionSlots g sess).options := by
  unfold placeMandatorySession
  dsimp only
  split
  · refine foldl_pres (fun acc : GenState × Int => i ∈ acc.1.options) _ _ _ hi
      (fun acc slotId _ hacc => ?_)
    split
    · exact hacc
    · exact foldl_pres (fun acc : GenState × Int => i ∈ acc.1.options) _ _ _ hacc
        (fun acc' room _ hacc' =>
          placeMandatoryRoom_mono sess.id roomsById slotsById sessions slotId acc' room hacc')
  · exact hi

lemma placeElectiveRoom_mono {i : SInst} (electives : List Session)
    (slotsById : List (Nat × TimeSlot)) (pd : List (Nat × Nat)) (slotId : Nat)
    (acc : GenState × List (Nat × Nat)) (room : Room) (hi : i ∈ acc.1.options) :
    i ∈ (placeElectiveRoom electives slotsById pd slotId acc room).1.options := by
  unfold placeElectiveRoom
  dsimp only
  split
  · exact hi
  · exact List.mem_append_left _ hi

lemma placeElectiveSlot_mono {i : SInst} (rooms : List Room) (electives : List Session)
    (slotsById : List (Nat × TimeSlot)) (pd : List (Nat × Nat))
    (acc : GenState × List (Nat × Nat)) (slotId : Nat) (hi : i ∈ acc.1.options) :
    i ∈ (placeElectiveSlot rooms electives slotsById pd acc slotId).1.options := by
  unfold placeElectiveSlot
  exact foldl_pres (fun acc' : GenState × List (Nat × Nat) => i ∈ acc'.1.options) _ _ _ hi
    (fun acc' room _ hacc' => placeElectiveRoom_mono electives slotsById pd slotId acc' room hacc')

/-- **C10.** The Capacity Resolver's molenhoek rule is keyed to the literal
session id 46, not to the PLENARY session type: in room "molenhoek" every
session id other than 46 gets capacity 0 at every slot (even when lookups
succeed), while the Master Schedule Generator still force-places every PLENARY
session — whatever its id — into "molenhoek" at slot 2 whenever the fixed
(Excel) placements supply no instance of it at slot 2. -/
theorem molenhoek_keyed_to_session_46
    (roomsById : List (String × Room)) (slotsById : List (Nat × TimeSlot))
    (sessions : List Session) (rooms : List Room) (timeSlots : List TimeSlot)
    (fixedInstances : List FixedInst) (advisors : List Advisor)
    (sessionId slotId : Nat) (hses : ¬ sessionId = 46)
    (sess : Session) (hmem : sess ∈ sessions) (hplen : sess.type = SessionType.PLENARY)
    (hfix : ∀ fi ∈ fixedInstances, fixedLoaded fi = true →
      ¬ (fi.sessionId = some sess.id ∧ fi.slotId = some 2)) :
    getStrictCapacity "molenhoek" sessionId slotId roomsById slotsById sessions = 0
    ∧ ∃ i ∈ generateSmartMasterOptions sessions rooms timeSlots fixedInstances
        roomsById slotsById advisors,
        i.sessionId = sess.id ∧ i.roomId = "molenhoek" ∧ i.slotId = 2 := by
  constructor
  · unfold getStrictCapacity
    cases jsGet "molenhoek" roomsById with
    | none => rfl
    | some room =>
      cases jsGet slotId slotsById with
      | none => rfl
      | some slot => simp [hses]
  · unfold generateSmartMasterOptions
    dsimp only
    have h1 := step1_no_target sess.id fixedInstances
      ⟨[], 0, ((timeSlots.filter (fun ts => decide (ts.type = SlotType.SESSION))).map (·.id)).foldl
        (fun u sid => jsSet sid ([] : List String) u) []⟩
      (fun m hm => absurd hm (List.not_mem_nil m)) hfix
    have h15 := forcePlenary_reaches sess
      (sessions.filter (fun s => decide (s.type = SessionType.PLENARY))) _
      (List.mem_filter.mpr ⟨hmem, by simp [hplen]⟩) (Or.inr h1)
    obtain ⟨i, hi, ht⟩ := h15
    refine ⟨i, ?_, ht⟩
    refine foldl_pres (fun acc : GenState × List (Nat × Nat) => i ∈ acc.1.options) _ _ _
      ?_ (fun acc slotId' _ hacc =>
        placeElectiveSlot_mono rooms _ slotsById (preferenceDemandOf advisors) acc slotId' hacc)
    exact foldl_pres (fun g : GenState => i ∈ g.options) _ _ _ hi
      (fun g' sess' _ hg' => placeMandatorySession_mono rooms roomsById slotsById sessions
        _ g' sess' hg')

def w10sessions : List Session := [⟨99, "P", "", SessionType.PLENARY, 1, none⟩]

def w10rooms : List Room := [⟨"molenhoek", "M", 300⟩]

def w10slots : List TimeSlot := [⟨2, 1, "08.15", SlotType.SESSION⟩]

theorem molenhoek_keyed_to_session_46_witness :
    getStrictCapacity "molenhoek" 99 2 (roomsByIdOf w10rooms) (slotsByIdOf w10slots)
      w10sessions = 0
    ∧ ∃ i ∈ generateSmartMasterOptions w10sessions w10rooms w10slots []
        (roomsByIdOf w10rooms) (slotsByIdOf w10slots) [],
        i.sessionId = 99 ∧ i.roomId = "molenhoek" ∧ i.slotId = 2 :=
  molenhoek_keyed_to_session_46 (roomsByIdOf w10rooms) (slotsByIdOf w10slots) w10sessions
    w10rooms w10slots [] [] 99 2 (by decide) ⟨99, "P", "", SessionType.PLENARY, 1, none⟩
    (by decide) (by decide) (by decide)

end Plan
